import Mathlib

/-!
Verification of the Jack Attack card-game engine (`core/game.ts`, `core/types.ts`).

The engine is a pure state-transition core.  We embed it shallowly:

* TypeScript enums become Lean inductives in the same declaration order
  (`Object.values` enumerates declaration order).
* `Math.random`-driven choices are modelled as explicit parameters:
  `shuffleDeck` becomes an arbitrary length-preserving function supplied to
  `drawCard`, and the Seven-peek random opponent/card picks become two `Nat`
  parameters reduced modulo the relevant lengths (covering exactly the range
  `Math.floor(Math.random()*len)` can produce).
* JavaScript truthiness of `winnerId` (a `string | null` tested with
  `if (currentState.winnerId)`) is modelled by `truthyStr`, which is false on
  `null` and on the empty string.
* `GameState.previousState` is a nullable self reference, so `GameState` is a
  nested inductive over a record functor `GameStateF`.
* Array `sort` in JS is stable; `sortHand` is modelled by a stable insertion
  sort with the same comparator (a stable sort's output is determined by the
  comparator, so this agrees with the source).
-/

inductive Suit where
  | hearts
  | diamonds
  | clubs
  | spades
deriving DecidableEq, Repr

inductive Rank where
  | two
  | three
  | four
  | five
  | six
  | seven
  | eight
  | nine
  | ten
  | jack
  | queen
  | king
  | ace
deriving DecidableEq, Repr

inductive Difficulty where
  | easy
  | medium
  | hard
deriving DecidableEq, Repr

inductive GameMode where
  | vsBot
  | localMultiplayer
  | tournament
deriving DecidableEq, Repr

/-- Enum string value of a suit (`Suit.Hearts = '♥'` etc.). -/
def suitStr : Suit → String
  | .hearts => "♥"
  | .diamonds => "♦"
  | .clubs => "♣"
  | .spades => "♠"

/-- Enum string value of a rank (`Rank.Two = '2'` etc.). -/
def rankStr : Rank → String
  | .two => "2"
  | .three => "3"
  | .four => "4"
  | .five => "5"
  | .six => "6"
  | .seven => "7"
  | .eight => "8"
  | .nine => "9"
  | .ten => "10"
  | .jack => "J"
  | .queen => "Q"
  | .king => "K"
  | .ace => "A"

structure Card where
  id : String
  suit : Suit
  rank : Rank
deriving DecidableEq, Repr

structure Player where
  id : String
  name : String
  avatar : String
  isBot : Bool
  hand : List Card
deriving DecidableEq, Repr

structure TournamentConfig where
  totalRounds : Nat
  currentRound : Nat
  scores : List (String × Nat)
deriving DecidableEq, Repr

/-- The record of `GameState` fields, parameterised by the type of the
`previousState` field so the recursive knot can be tied below. -/
structure GameStateF (σ : Type) where
  deck : List Card
  discardPile : List Card
  players : List Player
  currentPlayerIndex : Nat
  direction : Int
  winnerId : Option String
  pendingPickup : Nat
  lastAction : String
  difficulty : Difficulty
  gameMode : GameMode
  pendingSuitChoice : Bool
  chosenSuit : Option Suit
  peekingCard : Option Card
  peekingPlayerId : Option String
  pendingSwap : Bool
  tournamentConfig : Option TournamentConfig
  showPassScreen : Bool
  nextPlayerName : String
  previousState : Option σ
  canUndo : Bool

inductive GameState where
  | mk : GameStateF GameState → GameState

def GameState.out : GameState → GameStateF GameState
  | .mk g => g

def GameState.deck (s : GameState) : List Card := s.out.deck

def GameState.discardPile (s : GameState) : List Card := s.out.discardPile

def GameState.players (s : GameState) : List Player := s.out.players

def GameState.currentPlayerIndex (s : GameState) : Nat := s.out.currentPlayerIndex

def GameState.direction (s : GameState) : Int := s.out.direction

def GameState.winnerId (s : GameState) : Option String := s.out.winnerId

def GameState.pendingPickup (s : GameState) : Nat := s.out.pendingPickup

def GameState.lastAction (s : GameState) : String := s.out.lastAction

def GameState.pendingSuitChoice (s : GameState) : Bool := s.out.pendingSuitChoice

def GameState.chosenSuit (s : GameState) : Option Suit := s.out.chosenSuit

def GameState.peekingCard (s : GameState) : Option Card := s.out.peekingCard

def GameState.peekingPlayerId (s : GameState) : Option String := s.out.peekingPlayerId

def GameState.pendingSwap (s : GameState) : Bool := s.out.pendingSwap

def GameState.showPassScreen (s : GameState) : Bool := s.out.showPassScreen

def GameState.nextPlayerName (s : GameState) : String := s.out.nextPlayerName

def GameState.previousState (s : GameState) : Option GameState := s.out.previousState

def GameState.canUndo (s : GameState) : Bool := s.out.canUndo

/-- JS truthiness of a `string | null` value: `null` and `""` are falsy. -/
def truthyStr : Option String → Bool
  | none => false
  | some w => w != ""

-- --- HELPER FUNCTIONS (core/game.ts) ---

/-- All suits in declaration order (`Object.values(Suit)`). -/
def allSuits : List Suit := [.hearts, .diamonds, .clubs, .spades]

/-- All ranks in declaration order (`Object.values(Rank)`). -/
def allRanks : List Rank :=
  [.two, .three, .four, .five, .six, .seven, .eight, .nine, .ten, .jack, .queen, .king, .ace]

/-- `createDeck`: the 52 canonical cards, suit-major in declaration order,
with id `` `${suit}-${rank}` ``. -/
def createDeck : List Card :=
  allSuits.flatMap fun suit =>
    allRanks.map fun rank => { id := suitStr suit ++ "-" ++ rankStr rank, suit, rank }

/-- `getSuitValue`. -/
def getSuitValue : Suit → Nat
  | .hearts => 1
  | .diamonds => 2
  | .clubs => 3
  | .spades => 4

/-- `getRankValue`. -/
def getRankValue : Rank → Nat
  | .two => 2
  | .three => 3
  | .four => 4
  | .five => 5
  | .six => 6
  | .seven => 7
  | .eight => 8
  | .nine => 9
  | .ten => 10
  | .jack => 11
  | .queen => 12
  | .king => 13
  | .ace => 14

/-- The `sortHand` comparator returns a negative number exactly when `a` must
come strictly before `b`: different suits compare by suit value, equal suits
by rank value. -/
def cardBefore (a b : Card) : Bool :=
  if a.suit ≠ b.suit then getSuitValue a.suit < getSuitValue b.suit
  else getRankValue a.rank < getRankValue b.rank

/-- Stable insertion: place `c` after every element not strictly after it. -/
def insertCard (c : Card) : List Card → List Card
  | [] => [c]
  | x :: xs => if cardBefore c x then c :: x :: xs else x :: insertCard c xs

/-- `sortHand`: JS `Array.prototype.sort` is stable, and a stable sort's
output is uniquely determined by the comparator; we realise it as a stable
insertion sort over the hand from left to right. -/
def sortHand (hand : List Card) : List Card :=
  hand.foldl (fun acc c => insertCard c acc) []

/-- `isBlackJack`. -/
def isBlackJack (card : Card) : Bool :=
  card.rank = Rank.jack && (card.suit = Suit.spades || card.suit = Suit.clubs)

/-- `isTwo`. -/
def isTwo (card : Card) : Bool :=
  card.rank = Rank.two

-- --- TURN MANAGEMENT ---

/-- `advanceTurn`'s index arithmetic:
`((index + direction*steps) % numPlayers + numPlayers) % numPlayers`, with
JS `%` being the truncated remainder (`Int.tmod`). -/
def stepIndex (index : Nat) (direction : Int) (steps : Int) (numPlayers : Nat) : Nat :=
  (((((index : Int) + direction * steps).tmod numPlayers) + numPlayers).tmod numPlayers).toNat

/-- `advanceTurn` on the state record. -/
def advanceTurn (g : GameStateF GameState) (steps : Int) : GameStateF GameState :=
  { g with currentPlayerIndex := stepIndex g.currentPlayerIndex g.direction steps g.players.length }

-- --- GAME ACTIONS ---

/-- `isValidMove`. -/
def isValidMove (card : Card) (topDiscard : Card) (pendingPickup : Nat) : Bool :=
  if pendingPickup > 0 then card.rank = topDiscard.rank
  else card.suit = topDiscard.suit || card.rank = topDiscard.rank

/-- `hand.findIndex(c => c.id === cardId)` followed by `splice(cardIndex, 1)`:
locate the first card with the given id and return it with the remaining
hand, or `none` when the id is absent. -/
def removeFirstBy (hand : List Card) (cardId : String) : Option (Card × List Card) :=
  match hand with
  | [] => none
  | c :: rest =>
    if c.id = cardId then some (c, rest)
    else (removeFirstBy rest cardId).map fun pr => (pr.1, c :: pr.2)

/-- King in a 2-player game: auto-swap the acting player's hand with the first
player whose id differs (`players.find(p => p.id !== player.id)`); when no such
player exists nothing happens and `actionText` keeps its default value. -/
def king2Swap (players : List Player) (cur : Nat) (player1 : Player)
    (defaultAction : String) : List Player × String :=
  match players.findIdx? (fun p => p.id != player1.id) with
  | none => (players, defaultAction)
  | some j =>
    match players[j]? with
    | none => (players, defaultAction)
    | some other =>
      ((players.set cur { player1 with hand := other.hand }).set j { other with hand := player1.hand },
        "🤴 SWAP! Hands exchanged!")

/-- Seven: reveal a random card of a random opponent with a non-empty hand.
The two `Math.random` draws are modelled by `oi`/`ci` taken modulo the number
of candidates. With no candidate nothing happens and `actionText` keeps its
default value. -/
def sevenPeek (players : List Player) (actingId : String) (oi ci : Nat)
    (defaultAction : String) : Option Card × Option String × String :=
  let opponents := players.filter fun p => p.id != actingId && decide (p.hand.length > 0)
  match opponents[oi % opponents.length]? with
  | none => (none, none, defaultAction)
  | some opp =>
    match opp.hand[ci % opp.hand.length]? with
    | none => (none, none, defaultAction)
    | some c => (some c, some opp.id, "👁️ PEEK! Saw " ++ opp.name ++ "\x27s card!")

/-- The `--- SPECIAL CARD EFFECTS ---` dispatch of `playCard`, applied to the
state record in which the played card has already been removed from the hand
and pushed on the discard pile.  Returns the updated record (with
`lastAction` already set) and `stepsToAdvance`. -/
def playCardEffect (g : GameStateF GameState) (card : Card) (player1 : Player)
    (oi ci : Nat) : GameStateF GameState × Int :=
  let defaultAction := player1.name ++ " played " ++ rankStr card.rank ++ suitStr card.suit
  if isTwo card then
    ({ g with pendingPickup := g.pendingPickup + 2, lastAction := "💥 +2 Cards Attack!" }, 1)
  else if isBlackJack card then
    ({ g with pendingPickup := g.pendingPickup + 5, lastAction := "🔥 +5 Cards MEGA Attack!" }, 1)
  else if card.rank = Rank.eight then
    ({ g with lastAction := "🚫 SKIP!" }, if g.players.length = 2 then 0 else 2)
  else if card.rank = Rank.ace then
    if g.players.length = 2 then ({ g with lastAction := "↩️ Reverse!" }, 0)
    else ({ g with direction := g.direction * (-1), lastAction := "↩️ Reverse!" }, 1)
  else if card.rank = Rank.queen then
    ({ g with pendingSuitChoice := true, lastAction := "👑 WILD! Choose a suit!" }, 0)
  else if card.rank = Rank.king then
    if g.players.length > 2 then
      ({ g with pendingSwap := true, lastAction := "🤴 SWAP! Choose a player!" }, 0)
    else
      let pr := king2Swap g.players g.currentPlayerIndex player1 defaultAction
      ({ g with players := pr.1, lastAction := pr.2 }, 1)
  else if card.rank = Rank.seven then
    let pr := sevenPeek g.players player1.id oi ci defaultAction
    ({ g with peekingCard := pr.1, peekingPlayerId := pr.2.1, lastAction := pr.2.2 }, 1)
  else
    ({ g with lastAction := defaultAction }, 1)

/-- `playCard`.  `oi`/`ci` stand for the Seven-peek `Math.random` draws. -/
def playCard (oi ci : Nat) (s : GameState) (cardId : String) : GameState :=
  if truthyStr s.out.winnerId then s
  else
    match s.out.players[s.out.currentPlayerIndex]? with
    | none => s
    | some player =>
      match removeFirstBy player.hand cardId with
      | none => s
      | some (card, rest) =>
        let player1 := { player with hand := rest }
        let g1 := { s.out with
          players := s.out.players.set s.out.currentPlayerIndex player1,
          discardPile := s.out.discardPile ++ [card] }
        if rest.isEmpty then
          .mk { g1 with winnerId := some player1.id, lastAction := player1.name ++ " wins! 🎉" }
        else
          let pr := playCardEffect g1 card player1 oi ci
          if pr.2 > 0 then .mk (advanceTurn pr.1 pr.2) else .mk pr.1

/-- The deck-refill step at the top of `drawCard`'s loop body: with a
non-empty deck nothing happens; with an empty deck and more than one discard,
the discard's top card is kept and the rest is shuffled into a new deck;
otherwise there is nothing left to draw (`break`), signalled by `none`. -/
def refillDeck (shuffle : List Card → List Card) (deck discard : List Card) :
    Option (List Card × List Card) :=
  if deck.isEmpty then
    if 1 < discard.length then
      match discard.getLast? with
      | some top => some (shuffle discard.dropLast, [top])
      | none => none
    else none
  else some (deck, discard)

/-- The `for` loop of `drawCard`: each iteration refills the deck if needed
(or breaks), then pops the deck's last card into the hand.  Returns the final
deck, discard pile, hand and `actuallyDrawn`. -/
def drawLoop (shuffle : List Card → List Card) :
    Nat → List Card → List Card → List Card → Nat → List Card × List Card × List Card × Nat
  | 0, deck, discard, hand, drawn => (deck, discard, hand, drawn)
  | fuel + 1, deck, discard, hand, drawn =>
    match refillDeck shuffle deck discard with
    | none => (deck, discard, hand, drawn)
    | some (deck1, discard1) =>
      match deck1.getLast? with
      | some c => drawLoop shuffle fuel deck1.dropLast discard1 (hand ++ [c]) (drawn + 1)
      | none => drawLoop shuffle fuel deck1 discard1 hand drawn

/-- `drawCard`, with the `Math.random` shuffle of the recycled discard pile
supplied as the `shuffle` parameter. -/
def drawCard (shuffle : List Card → List Card) (s : GameState) : GameState :=
  if truthyStr s.out.winnerId then s
  else
    match s.out.players[s.out.currentPlayerIndex]? with
    | none => s
    | some player =>
      let countToDraw := if s.out.pendingPickup > 0 then s.out.pendingPickup else 1
      let res := drawLoop shuffle countToDraw s.out.deck s.out.discardPile player.hand 0
      let hand1 := if player.isBot then res.2.2.1 else sortHand res.2.2.1
      let action :=
        if s.out.pendingPickup > 0 then
          player.name ++ " had to pick up " ++ Nat.repr res.2.2.2 ++ "! 😅"
        else player.name ++ " drew a card"
      .mk (advanceTurn
        { s.out with
          deck := res.1,
          discardPile := res.2.1,
          players := s.out.players.set s.out.currentPlayerIndex { player with hand := hand1 },
          pendingPickup := 0,
          lastAction := action } 1)

/-- Abbreviation for the loop result `drawCard` computes for a given acting
player (used to state equation lemmas about `drawCard`). -/
def drawRes (shuffle : List Card → List Card) (s : GameState) (player : Player) :
    List Card × List Card × List Card × Nat :=
  drawLoop shuffle (if s.out.pendingPickup > 0 then s.out.pendingPickup else 1)
    s.out.deck s.out.discardPile player.hand 0

-- --- POWER-UP CARD ACTIONS ---

/-- `chooseSuit` (Queen resolution). -/
def chooseSuit (s : GameState) (suit : Suit) : GameState :=
  if !s.out.pendingSuitChoice then s
  else
    .mk (advanceTurn
      { s.out with
        chosenSuit := some suit,
        pendingSuitChoice := false,
        lastAction := "👑 Changed suit to " ++ suitStr suit ++ "!" } 1)

/-- `swapWith` (King resolution): exchange the acting player's hand with the
first player matching `targetPlayerId`; no-op without `pendingSwap` or when
the target is not found. -/
def swapWith (s : GameState) (targetPlayerId : String) : GameState :=
  if !s.out.pendingSwap then s
  else
    match s.out.players[s.out.currentPlayerIndex]? with
    | none => s
    | some cur =>
      match s.out.players.findIdx? (fun p => p.id == targetPlayerId) with
      | none => s
      | some j =>
        match s.out.players[j]? with
        | none => s
        | some target =>
          .mk (advanceTurn
            { s.out with
              players := (s.out.players.set s.out.currentPlayerIndex
                  { cur with hand := target.hand }).set j { target with hand := cur.hand },
              pendingSwap := false,
              lastAction := "🤴 " ++ cur.name ++ " swapped with " ++ target.name ++ "!" } 1)

/-- `clearPeek`. -/
def clearPeek (s : GameState) : GameState :=
  .mk { s.out with peekingCard := none, peekingPlayerId := none }

/-- `confirmPassScreen`. -/
def confirmPassScreen (s : GameState) : GameState :=
  .mk { s.out with showPassScreen := false }

/-- `triggerPassScreen`. -/
def triggerPassScreen (s : GameState) : GameState :=
  match s.out.players[s.out.currentPlayerIndex]? with
  | none => s
  | some nextPlayer =>
    .mk { s.out with showPassScreen := true, nextPlayerName := nextPlayer.name }

/-- One step of building `suitCounts`: JS object keys (non-numeric strings)
enumerate in insertion order, so the record is an association list ordered by
first occurrence. -/
def bumpSuit : List (Suit × Nat) → Suit → List (Suit × Nat)
  | [], su => [(su, 1)]
  | (t, k) :: rest, su =>
    if t = su then (t, k + 1) :: rest else (t, k) :: bumpSuit rest su

/-- `suitCounts` of `botChooseSuit`, in `Object.entries` order. -/
def suitCountsOf (hand : List Card) : List (Suit × Nat) :=
  hand.foldl (fun m c => bumpSuit m c.suit) []

/-- The `bestSuit`/`maxCount` fold of `botChooseSuit`: start from
`(Hearts, 0)` and take each entry whose count strictly exceeds the running
maximum. -/
def bestSuitOf (hand : List Card) : Suit :=
  ((suitCountsOf hand).foldl
    (fun acc e => if e.2 > acc.2 then e else acc) (Suit.hearts, 0)).1

/-- `botChooseSuit`. -/
def botChooseSuit (s : GameState) : GameState :=
  match s.out.players[s.out.currentPlayerIndex]? with
  | none => s
  | some bot => chooseSuit s (bestSuitOf bot.hand)

/-- `botChooseSwap`: swap with the player having the fewest cards among the
others (first minimum wins via `reduce`); with no other player the JS code
would fault on `target.id`, which cannot happen with ≥ 2 players. -/
def botChooseSwap (s : GameState) : GameState :=
  match s.out.players[s.out.currentPlayerIndex]? with
  | none => s
  | some bot =>
    let others := s.out.players.filter fun p => p.id != bot.id
    match others with
    | [] => s
    | o :: rest =>
      let target := rest.foldl (fun mn p => if p.hand.length < mn.hand.length then p else mn) o
      swapWith s target.id

-- --- UNDO FUNCTIONALITY ---

/-- `saveStateForUndo`: keep one level of undo — the snapshot stored in
`previousState` has its own `previousState`/`canUndo` cleared. -/
def saveStateForUndo (s : GameState) : GameState :=
  .mk { s.out with
    previousState := some (.mk { s.out with previousState := none, canUndo := false }),
    canUndo := true }

/-- `undoLastMove`: return the stored snapshot with undo disabled, or `none`
when no undo is available. -/
def undoLastMove (s : GameState) : Option GameState :=
  if !s.out.canUndo then none
  else
    match s.out.previousState with
    | none => none
    | some p =>
      some (.mk { p.out with canUndo := false, previousState := none, lastAction := "↩️ Move undone!" })

-- --- GAME CREATION ---

/-- The player-construction loop of `createNewGame`, dealing 7 cards per
player off the front of the shuffled deck.  `i` is the loop index, `k` the
number of players still to create.  Mirrors defaulting of names
(`playerNames?.[i] || defaultName`, where the empty string is falsy) and
avatars (human index 0 gets 😎, everyone else `shuffledAvatars[i]`). -/
def dealPlayers (gameMode : GameMode) (playerNames : Option (List String))
    (avatars : List String) : Nat → Nat → List Card → List Player × List Card
  | _, 0, deck => ([], deck)
  | i, k + 1, deck =>
    let isBot := gameMode == GameMode.vsBot && decide (i > 0)
    let hand0 := deck.take 7
    let hand := if i == 0 || gameMode == GameMode.localMultiplayer then sortHand hand0 else hand0
    let defaultName :=
      if isBot then "Bot " ++ Nat.repr i
      else if i == 0 then "You" else "Player " ++ Nat.repr (i + 1)
    let name :=
      match playerNames.bind fun l => l[i]? with
      | some nm => if nm = "" then defaultName else nm
      | none => defaultName
    let pid := (if isBot then "bot-" else "player-") ++ Nat.repr i
    let avatar := if isBot then avatars.getD i "" else if i == 0 then "😎" else avatars.getD i ""
    let pr := dealPlayers gameMode playerNames avatars (i + 1) k (deck.drop 7)
    ({ id := pid, name, avatar, isBot, hand } :: pr.1, pr.2)

/-- `createNewGame`, taking the already-shuffled deck and the already-shuffled
avatar list as parameters (both are produced by `Math.random` in the source).
Returns `none` exactly where the source throws `"Deck error"` (deck exhausted
before the start card is flipped). -/
def createNewGameFrom (shuffled : List Card) (numPlayers : Nat)
    (difficulty : Difficulty) (gameMode : GameMode)
    (playerNames : Option (List String)) (avatars : List String) : Option GameState :=
  let n := if numPlayers < 2 then 2 else if numPlayers > 4 then 4 else numPlayers
  let pr := dealPlayers gameMode playerNames avatars 0 n shuffled
  match pr.2.getLast? with
  | none => none
  | some startCard =>
    some (.mk {
      deck := pr.2.dropLast,
      discardPile := [startCard],
      players := pr.1,
      currentPlayerIndex := 0,
      direction := 1,
      winnerId := none,
      pendingPickup := 0,
      lastAction := "Game Started! Have fun!",
      difficulty,
      gameMode,
      pendingSuitChoice := false,
      chosenSuit := none,
      peekingCard := none,
      peekingPlayerId := none,
      pendingSwap := false,
      tournamentConfig := none,
      showPassScreen := gameMode == GameMode.localMultiplayer,
      nextPlayerName := match pr.1[0]? with
        | some p => if p.name = "" then "" else p.name
        | none => "",
      previousState := none,
      canUndo := false })

-- --- REACHABILITY AND INVARIANT DEFINITIONS ---

/-- Total number of cards held in the players' hands. -/
def handsSum (players : List Player) : Nat :=
  (players.map fun p => p.hand.length).sum

/-- Cards in play: deck + discard pile + all hands (the undo snapshot is a
copy, not part of the live card pool). -/
def countF (g : GameStateF GameState) : Nat :=
  g.deck.length + g.discardPile.length + handsSum g.players

def cardCount (s : GameState) : Nat := countF s.out

/-- The number of cards a forced draw can actually supply: the whole deck
plus, once the deck runs out, everything in the discard pile except its top
card (which is kept when recycling). -/
def availableToDraw (deck discard : List Card) : Nat :=
  deck.length + (discard.length - min discard.length 1)

/-- One engine transition.  Every exported transition of `core/game.ts` is
covered: `performBotTurn` is by definition a `playCard` or `drawCard` call,
so it is subsumed by the `play`/`draw` constructors, whose `cardId`,
peek-randomness and shuffle arguments are universally quantified.  A real
`shuffleDeck` outcome is a permutation, hence length-preserving, which is
all `draw` records. -/
inductive Step : GameState → GameState → Prop where
  | play (s : GameState) (oi ci : Nat) (cardId : String) : Step s (playCard oi ci s cardId)
  | draw (s : GameState) (shuffle : List Card → List Card)
      (hlen : ∀ l, (shuffle l).length = l.length) : Step s (drawCard shuffle s)
  | suitChoice (s : GameState) (suit : Suit) : Step s (chooseSuit s suit)
  | swapChoice (s : GameState) (pid : String) : Step s (swapWith s pid)
  | peekClear (s : GameState) : Step s (clearPeek s)
  | passConfirm (s : GameState) : Step s (confirmPassScreen s)
  | passTrigger (s : GameState) : Step s (triggerPassScreen s)
  | save (s : GameState) : Step s (saveStateForUndo s)
  | undo (s s' : GameState) : undoLastMove s = some s' → Step s s'
  | botSuit (s : GameState) : Step s (botChooseSuit s)
  | botSwap (s : GameState) : Step s (botChooseSwap s)

/-- Reachability from a fixed state by engine transitions. -/
inductive Reach (s0 : GameState) : GameState → Prop where
  | refl : Reach s0 s0
  | tail {s s' : GameState} : Reach s0 s → Step s s' → Reach s0 s'

/-- States produced by `createNewGame`: the dealt deck is some shuffle
(permutation) of the canonical 52-card deck. -/
def IsInitial (s : GameState) : Prop :=
  ∃ shuffled numPlayers difficulty gameMode playerNames avatars,
    shuffled.Perm createDeck ∧
    createNewGameFrom shuffled numPlayers difficulty gameMode playerNames avatars = some s

/-- Conservation invariant, strengthened over the single-level undo snapshot
so that `undoLastMove` can be handled in the induction. -/
def ConsInv (s : GameState) : Prop :=
  cardCount s = 52 ∧
    ∀ p, s.out.previousState = some p → cardCount p = 52 ∧ p.out.previousState = none

-- --- DEFINITIONS FOR THE botChooseSuit CLAIM ---

/-- Number of cards of a given suit in a hand. -/
def countSuitIn (hand : List Card) (su : Suit) : Nat :=
  (hand.filter fun c => c.suit = su).length

/-- Index of the first card of a given suit in a hand (`hand.length` when the
suit does not occur). -/
def firstSuitIdx (hand : List Card) (su : Suit) : Nat :=
  hand.findIdx fun c => c.suit = su

/-- First-match lookup in the `suitCounts` association list (JS property read
`suitCounts[suit]`, with 0 standing for `undefined`). -/
def assocCount : List (Suit × Nat) → Suit → Nat
  | [], _ => 0
  | e :: rest, su => if e.1 = su then e.2 else assocCount rest su

-- --- CONCRETE STATES FOR WITNESSES AND COUNTEREXAMPLES ---

/-- Convenience card literal with the id scheme of `createDeck`. -/
def mkCard (su : Suit) (rk : Rank) : Card :=
  { id := suitStr su ++ "-" ++ rankStr rk, suit := su, rank := rk }

/-- A blank state record used as the base of concrete test states and as the
(never-reached) fallback of `Option.getD` below. -/
def baseG : GameStateF GameState :=
  { deck := [], discardPile := [], players := [], currentPlayerIndex := 0, direction := 1,
    winnerId := none, pendingPickup := 0, lastAction := "", difficulty := .medium,
    gameMode := .vsBot, pendingSuitChoice := false, chosenSuit := none, peekingCard := none,
    peekingPlayerId := none, pendingSwap := false, tournamentConfig := none,
    showPassScreen := false, nextPlayerName := "", previousState := none, canUndo := false }

def emptyGS : GameState := .mk baseG

def demoHuman (hand : List Card) : Player :=
  { id := "player-0", name := "You", avatar := "😎", isBot := false, hand }

def demoBot (hand : List Card) : Player :=
  { id := "bot-1", name := "Bot 1", avatar := "🐯", isBot := true, hand }

def demoAvatars : List String := ["🐯", "🐼", "🦊", "🐨", "🦁", "🐸", "🦄", "🐙"]

/-- A 4-player game dealt from the unshuffled canonical deck (the identity
permutation is one possible `shuffleDeck` outcome). -/
def init4 : GameState :=
  (createNewGameFrom createDeck 4 .medium .vsBot none demoAvatars).getD emptyGS

/-- The canonical deck rotated by 10 cards, so that the first player is dealt
`♥Q ♥K ♥A ♦2 ♦3 ♦4 ♦5` and the start card is `♥J`. -/
def rotDeck : List Card := createDeck.drop 10 ++ createDeck.take 10

/-- A 3-player game dealt from `rotDeck`. -/
def init3 : GameState :=
  (createNewGameFrom rotDeck 3 .medium .vsBot none demoAvatars).getD emptyGS

/-- A terminal state (winner already set) in which a Queen's suit choice is
still pending. -/
def termPendingState : GameState :=
  .mk { baseG with
    discardPile := [mkCard .hearts .queen],
    players := [demoHuman [mkCard .diamonds .three], demoBot [mkCard .clubs .nine]],
    winnerId := some "player-0",
    pendingSuitChoice := true }

/-- A genuinely terminal state with nothing pending. -/
def termPlainState : GameState :=
  .mk { baseG with
    discardPile := [mkCard .clubs .five],
    players := [demoHuman [mkCard .diamonds .three], demoBot [mkCard .clubs .nine]],
    winnerId := some "bot-1" }

/-- Two-player state under a pending +2 attack where the human holds a
defending 2. -/
def attackState : GameState :=
  .mk { baseG with
    discardPile := [mkCard .spades .two],
    players := [demoHuman [mkCard .hearts .two, mkCard .hearts .three], demoBot [mkCard .clubs .nine, mkCard .clubs .ten]],
    pendingPickup := 2 }

/-- The spec's win scenario: the human's only card is `5♦`, discard top `5♣`. -/
def winState : GameState :=
  .mk { baseG with
    discardPile := [mkCard .clubs .five],
    players := [demoHuman [mkCard .diamonds .five], demoBot [mkCard .clubs .nine, mkCard .clubs .ten]],
    pendingPickup := 0 }

/-- A state where playing `♦3` is illegal (top is `♠5`, no pending pickup)
and a suit choice is pending — `playCard` accepts it anyway. -/
def noCheckState : GameState :=
  .mk { baseG with
    discardPile := [mkCard .spades .five],
    players := [demoHuman [mkCard .diamonds .three, mkCard .diamonds .four], demoBot [mkCard .clubs .nine]],
    pendingSuitChoice := true }

/-- Deck and discard exhausted (discard holds only its top card) while a +5
attack is pending: a forced draw can supply nothing. -/
def exhaustState : GameState :=
  .mk { baseG with
    discardPile := [mkCard .spades .five],
    players := [demoHuman [mkCard .diamonds .three], demoBot []],
    pendingPickup := 5 }

/-- A pending suit choice where the bot's hand ties Spades with Hearts
(`♠5` first): declaration-order tie-breaking would pick Hearts. -/
def tieSuitState : GameState :=
  .mk { baseG with
    discardPile := [mkCard .hearts .queen],
    players := [demoBot [mkCard .spades .five, mkCard .hearts .six], demoHuman [mkCard .clubs .nine]],
    pendingSuitChoice := true }

-- --- GENERAL LEMMAS ---

@[simp] theorem GameState.out_mk (g : GameStateF GameState) : (GameState.mk g).out = g := rfl

theorem tmod_neg_left (a n : Int) : Int.tmod (-a) n = -(Int.tmod a n) := by
  simp [Int.tmod_def, Int.neg_tdiv]
  ring

/-- The JS normalisation `((x % n) + n) % n` (truncated `%`) computes the
mathematical (Euclidean) remainder. -/
theorem tmod_norm (a n : Int) (hn : 0 < n) : ((a.tmod n) + n).tmod n = a.emod n := by
  have h1 : a.tmod n < n := Int.tmod_lt_of_pos a hn
  have h2 : -n < a.tmod n := by
    rcases le_or_lt 0 a with ha | ha
    · have := Int.tmod_nonneg n ha
      omega
    · have hpos := Int.tmod_lt_of_pos (-a) hn
      have hneg : (-a).tmod n = -(a.tmod n) := tmod_neg_left a n
      omega
  have h3 : (0:Int) ≤ a.tmod n + n := by omega
  rw [Int.tmod_eq_emod h3 hn.le]
  have h4 : a.tmod n + n = a.tmod n + n * 1 := by ring
  rw [h4, Int.add_mul_emod_self_left, Int.tmod_def]
  have h5 : a - n * a.tdiv n = a + n * (-(a.tdiv n)) := by ring
  rw [h5, Int.add_mul_emod_self_left]
  rfl

theorem stepIndex_toInt (i : Nat) (d st : Int) (n : Nat) (hn : 0 < n) :
    (stepIndex i d st n : Int) = ((i : Int) + d * st).emod n := by
  have hn' : (0:Int) < n := by exact_mod_cast hn
  unfold stepIndex
  rw [tmod_norm _ _ hn']
  exact Int.toNat_of_nonneg (Int.emod_nonneg _ (by omega))

theorem stepIndex_lt (i : Nat) (d st : Int) (n : Nat) (hn : 0 < n) :
    stepIndex i d st n < n := by
  have hn' : (0:Int) < n := by exact_mod_cast hn
  have h := Int.emod_lt_of_pos ((i : Int) + d * st) hn'
  have h2 := stepIndex_toInt i d st n hn
  have h3 : ((i : Int) + d * st) % (n : Int) = ((i : Int) + d * st).emod n := rfl
  omega

theorem removeFirstBy_length (hand : List Card) (cid : String) (c : Card) (rest : List Card)
    (h : removeFirstBy hand cid = some (c, rest)) : hand.length = rest.length + 1 := by
  induction hand generalizing c rest with
  | nil => simp [removeFirstBy] at h
  | cons x xs ih =>
    rw [removeFirstBy] at h
    split at h
    · cases h
      simp
    · cases hr : removeFirstBy xs cid with
      | none => rw [hr] at h; simp at h
      | some pr =>
        rw [hr] at h
        simp only [Option.map] at h
        cases h
        have := ih pr.1 pr.2 hr
        simp [this]

theorem insertCard_length (c : Card) (l : List Card) :
    (insertCard c l).length = l.length + 1 := by
  induction l with
  | nil => rfl
  | cons x xs ih =>
    rw [insertCard]
    split
    · simp
    · simp [ih]

theorem sortHand_length (hand : List Card) : (sortHand hand).length = hand.length := by
  suffices h : ∀ acc : List Card,
      (hand.foldl (fun acc c => insertCard c acc) acc).length = hand.length + acc.length by
    simpa using h []
  induction hand with
  | nil => intro acc; simp
  | cons x xs ih =>
    intro acc
    simp only [List.foldl_cons]
    rw [ih (insertCard x acc), insertCard_length]
    simp
    omega

-- --- playCard EQUATION LEMMAS ---

theorem playCard_terminal (oi ci : Nat) (s : GameState) (cid : String)
    (hw : truthyStr s.out.winnerId = true) : playCard oi ci s cid = s := by
  unfold playCard
  simp [hw]

theorem playCard_found (oi ci : Nat) (s : GameState) (cid : String)
    (player : Player) (card : Card) (rest : List Card)
    (hw : truthyStr s.out.winnerId = false)
    (hp : s.out.players[s.out.currentPlayerIndex]? = some player)
    (hr : removeFirstBy player.hand cid = some (card, rest)) :
    playCard oi ci s cid =
      (if rest.isEmpty then
        GameState.mk { s.out with
          players := s.out.players.set s.out.currentPlayerIndex { player with hand := rest },
          discardPile := s.out.discardPile ++ [card],
          winnerId := some player.id,
          lastAction := player.name ++ " wins! 🎉" }
      else
        let pr := playCardEffect
          { s.out with
            players := s.out.players.set s.out.currentPlayerIndex { player with hand := rest },
            discardPile := s.out.discardPile ++ [card] }
          card { player with hand := rest } oi ci
        if pr.2 > 0 then GameState.mk (advanceTurn pr.1 pr.2) else GameState.mk pr.1) := by
  unfold playCard
  simp only [hw, hp, hr, Bool.false_eq_true, if_false]

theorem playCard_found_eff (oi ci : Nat) (s : GameState) (cid : String)
    (player : Player) (card : Card) (rest : List Card)
    (hw : truthyStr s.out.winnerId = false)
    (hp : s.out.players[s.out.currentPlayerIndex]? = some player)
    (hr : removeFirstBy player.hand cid = some (card, rest))
    (he : rest.isEmpty = false) :
    playCard oi ci s cid =
      (if (playCardEffect
            { s.out with
              players := s.out.players.set s.out.currentPlayerIndex { player with hand := rest },
              discardPile := s.out.discardPile ++ [card] }
            card { player with hand := rest } oi ci).2 > 0 then
        GameState.mk (advanceTurn
          (playCardEffect
            { s.out with
              players := s.out.players.set s.out.currentPlayerIndex { player with hand := rest },
              discardPile := s.out.discardPile ++ [card] }
            card { player with hand := rest } oi ci).1
          (playCardEffect
            { s.out with
              players := s.out.players.set s.out.currentPlayerIndex { player with hand := rest },
              discardPile := s.out.discardPile ++ [card] }
            card { player with hand := rest } oi ci).2)
      else
        GameState.mk (playCardEffect
          { s.out with
            players := s.out.players.set s.out.currentPlayerIndex { player with hand := rest },
            discardPile := s.out.discardPile ++ [card] }
          card { player with hand := rest } oi ci).1) := by
  rw [playCard_found oi ci s cid player card rest hw hp hr, if_neg (by simp [he])]

-- --- CLAIM C2 ---

/-- C2: `isValidMove(card, topDiscard, pendingPickup)` returns true iff,
under an active attack (`pendingPickup > 0`), the card's rank matches the
discard top's rank (suit match alone does not defend), and otherwise iff the
card matches the discard top in suit or in rank. -/
theorem isValidMove_spec (card topDiscard : Card) (pendingPickup : Nat) :
    isValidMove card topDiscard pendingPickup = true ↔
      ((pendingPickup > 0 ∧ card.rank = topDiscard.rank) ∨
        (pendingPickup = 0 ∧ (card.suit = topDiscard.suit ∨ card.rank = topDiscard.rank))) := by
  unfold isValidMove
  rcases Nat.eq_zero_or_pos pendingPickup with h | h
  · subst h
    simp
  · have h0 : pendingPickup ≠ 0 := by omega
    simp [h, h0]

-- --- CLAIM C1 ---

/-- C1 counterexample: in a state whose `winnerId` is already set but whose
`pendingSuitChoice` is still true, `chooseSuit` is not a no-op — it clears
the pending flag and advances the turn, mutating gameplay state.  The engine
only guards `playCard`/`drawCard` with a `winnerId` check. -/
theorem chooseSuit_terminal_mutates :
    termPendingState.winnerId = some "player-0" ∧
      (chooseSuit termPendingState Suit.hearts).currentPlayerIndex ≠
        termPendingState.currentPlayerIndex ∧
      (chooseSuit termPendingState Suit.hearts).pendingSuitChoice ≠
        termPendingState.pendingSuitChoice := by
  refine ⟨rfl, ?_, ?_⟩ <;> decide

/-- C1 amended: with `winnerId` holding a (non-empty) player id, `playCard`
and `drawCard` return the input state unchanged; `chooseSuit` and `swapWith`
are no-ops only by virtue of their pending-flag guards (they never check
`winnerId`); `clearPeek`, `confirmPassScreen` and `triggerPassScreen` check
nothing at all. -/
theorem terminal_noop_amended (s : GameState) (w : String) (oi ci : Nat) (cid : String)
    (sh : List Card → List Card) (su : Suit) (pid : String)
    (hw : s.winnerId = some w) (hne : w ≠ "") :
    playCard oi ci s cid = s ∧ drawCard sh s = s ∧
      (s.pendingSuitChoice = false → chooseSuit s su = s) ∧
      (s.pendingSwap = false → swapWith s pid = s) := by
  have ht : truthyStr s.out.winnerId = true := by
    unfold GameState.winnerId at hw
    rw [hw]
    simp [truthyStr, hne]
  refine ⟨playCard_terminal _ _ _ _ ht, ?_, ?_, ?_⟩
  · unfold drawCard
    simp [ht]
  · intro h
    unfold GameState.pendingSuitChoice at h
    unfold chooseSuit
    simp [h]
  · intro h
    unfold GameState.pendingSwap at h
    unfold swapWith
    simp [h]

/-- C1 amended, witness at a concrete terminal state. -/
theorem terminal_noop_amended_witness :
    playCard 0 0 termPlainState "x" = termPlainState ∧
      drawCard id termPlainState = termPlainState ∧
      chooseSuit termPlainState Suit.hearts = termPlainState ∧
      swapWith termPlainState "player-0" = termPlainState :=
  have h := terminal_noop_amended termPlainState "bot-1" 0 0 "x" id Suit.hearts "player-0"
    rfl (by decide)
  ⟨h.1, h.2.1, h.2.2.1 rfl, h.2.2.2 rfl⟩

-- --- HAND-SUM AND LIST LEMMAS ---

theorem handsSum_nil : handsSum [] = 0 := rfl

theorem handsSum_cons (p : Player) (ps : List Player) :
    handsSum (p :: ps) = p.hand.length + handsSum ps := by
  simp [handsSum]

theorem handsSum_set (players : List Player) (i : Nat) (p q : Player)
    (hp : players[i]? = some p) :
    handsSum (players.set i q) + p.hand.length = handsSum players + q.hand.length := by
  induction players generalizing i with
  | nil => simp at hp
  | cons x xs ih =>
    cases i with
    | zero =>
      simp only [List.getElem?_cons_zero] at hp
      cases hp
      simp [handsSum_cons, List.set]
      omega
    | succ n =>
      simp only [List.getElem?_cons_succ] at hp
      have := ih n hp
      simp [handsSum_cons, List.set]
      omega

theorem findIdx?_spec {α} (p : α → Bool) (l : List α) (j : Nat) (h : l.findIdx? p = some j) :
    ∃ x, l[j]? = some x ∧ p x = true := by
  induction l generalizing j with
  | nil => simp [List.findIdx?] at h
  | cons a as ih =>
    rw [List.findIdx?_cons] at h
    by_cases hp : p a
    · simp [hp] at h
      subst h
      exact ⟨a, by simp, hp⟩
    · simp [hp] at h
      cases hr : as.findIdx? p with
      | none => rw [hr] at h; simp at h
      | some k =>
        rw [hr] at h
        simp at h
        subst h
        obtain ⟨x, hx, hpx⟩ := ih k hr
        exact ⟨x, by simpa using hx, hpx⟩

theorem king2Swap_length (players : List Player) (cur : Nat) (p1 : Player) (d : String) :
    (king2Swap players cur p1 d).1.length = players.length := by
  unfold king2Swap
  split
  · rfl
  rename_i j hf
  split
  · rfl
  rename_i other hj
  simp

theorem king2Swap_handsSum (players : List Player) (cur : Nat) (p1 : Player) (d : String)
    (hcur : players[cur]? = some p1) :
    handsSum (king2Swap players cur p1 d).1 = handsSum players := by
  unfold king2Swap
  split
  · rfl
  rename_i j hf
  split
  · rfl
  rename_i other hj
  obtain ⟨x, hx, hpx⟩ := findIdx?_spec _ _ _ hf
  rw [hj] at hx
  injection hx with hxo
  subst hxo
  have hne : j ≠ cur := by
    intro e
    subst e
    rw [hj] at hcur
    injection hcur with h
    subst h
    simp at hpx
  have h1 := handsSum_set players cur p1 { p1 with hand := other.hand } hcur
  have h2 : (players.set cur { p1 with hand := other.hand })[j]? = some other := by
    rw [List.getElem?_set_ne (Ne.symm hne)]
    exact hj
  have h3 := handsSum_set _ j other { other with hand := p1.hand } h2
  dsimp only at h1 h3 ⊢
  omega

-- --- playCardEffect STRUCTURE LEMMAS ---

theorem playCardEffect_frame (g : GameStateF GameState) (card : Card) (p1 : Player) (oi ci : Nat) :
    (playCardEffect g card p1 oi ci).1.deck = g.deck ∧
      (playCardEffect g card p1 oi ci).1.discardPile = g.discardPile ∧
      (playCardEffect g card p1 oi ci).1.currentPlayerIndex = g.currentPlayerIndex ∧
      (playCardEffect g card p1 oi ci).1.winnerId = g.winnerId ∧
      (playCardEffect g card p1 oi ci).1.canUndo = g.canUndo ∧
      (playCardEffect g card p1 oi ci).1.previousState = g.previousState ∧
      (playCardEffect g card p1 oi ci).1.players.length = g.players.length := by
  unfold playCardEffect
  split_ifs <;> simp [king2Swap_length]

theorem playCardEffect_handsSum (g : GameStateF GameState) (card : Card) (p1 : Player)
    (oi ci : Nat) (hcur : g.players[g.currentPlayerIndex]? = some p1) :
    handsSum (playCardEffect g card p1 oi ci).1.players = handsSum g.players := by
  unfold playCardEffect
  split_ifs <;> simp [king2Swap_handsSum _ _ _ _ hcur]

theorem playCardEffect_two (g : GameStateF GameState) (card : Card) (p1 : Player) (oi ci : Nat)
    (h : isTwo card = true) :
    playCardEffect g card p1 oi ci =
      ({ g with pendingPickup := g.pendingPickup + 2, lastAction := "💥 +2 Cards Attack!" }, 1) := by
  unfold playCardEffect
  rw [if_pos h]

theorem isBlackJack_not_two (card : Card) (h : isBlackJack card = true) : isTwo card = false := by
  unfold isBlackJack at h
  unfold isTwo
  simp only [Bool.and_eq_true, decide_eq_true_eq] at h
  simp [h.1]

theorem playCardEffect_blackjack (g : GameStateF GameState) (card : Card) (p1 : Player)
    (oi ci : Nat) (h : isBlackJack card = true) :
    playCardEffect g card p1 oi ci =
      ({ g with pendingPickup := g.pendingPickup + 5, lastAction := "🔥 +5 Cards MEGA Attack!" }, 1) := by
  unfold playCardEffect
  rw [if_neg, if_pos h]
  simp [isBlackJack_not_two card h]

theorem playCardEffect_pending (g : GameStateF GameState) (card : Card) (p1 : Player)
    (oi ci : Nat) (h1 : g.pendingSuitChoice = false) (h2 : g.pendingSwap = false) :
    ¬((playCardEffect g card p1 oi ci).1.pendingSuitChoice = true ∧
      (playCardEffect g card p1 oi ci).1.pendingSwap = true) := by
  unfold playCardEffect
  split_ifs <;> simp [h1, h2]

-- --- CLAIM C4 ---

/-- C4: when removing the played card empties the acting player's hand,
`playCard` returns the state with only four changes — that player's hand
emptied, the card pushed on the discard pile, `winnerId` set to the player's
id and a terminal `lastAction` — so `pendingPickup`, `pendingSuitChoice`,
`pendingSwap`, `direction`, `currentPlayerIndex`, `deck` and all other hands
are untouched, whatever the rank/suit of the winning card. -/
theorem playCard_win_spec (oi ci : Nat) (s : GameState) (cid : String)
    (player : Player) (card : Card)
    (hw : s.winnerId = none)
    (hp : s.players[s.currentPlayerIndex]? = some player)
    (hr : removeFirstBy player.hand cid = some (card, [])) :
    playCard oi ci s cid =
      GameState.mk { s.out with
        players := s.out.players.set s.out.currentPlayerIndex { player with hand := [] },
        discardPile := s.out.discardPile ++ [card],
        winnerId := some player.id,
        lastAction := player.name ++ " wins! 🎉" } := by
  have hw' : truthyStr s.out.winnerId = false := by
    unfold GameState.winnerId at hw
    rw [hw]
    rfl
  rw [playCard_found oi ci s cid player card [] hw' hp hr]
  simp

/-- C4 witness: the spec's concrete scenario — the human's only card is `5♦`
on discard top `5♣`. -/
theorem playCard_win_witness :
    playCard 0 0 winState "♦-5" =
      GameState.mk { winState.out with
        players := winState.out.players.set winState.out.currentPlayerIndex
          { demoHuman [mkCard .diamonds .five] with hand := [] },
        discardPile := winState.out.discardPile ++ [mkCard .diamonds .five],
        winnerId := some (demoHuman []).id,
        lastAction := (demoHuman []).name ++ " wins! 🎉" } :=
  playCard_win_spec 0 0 winState "♦-5" (demoHuman [mkCard .diamonds .five])
    (mkCard .diamonds .five) rfl (by decide) (by decide)

-- --- CLAIM C9 ---

/-- C9: `playCard` performs no legality check: whenever the current player's
hand contains the requested card id (and no winner is set), the card is
removed from the hand and pushed onto the discard pile — there is no
`isValidMove` hypothesis, and no hypothesis on `pendingSuitChoice` or
`pendingSwap`; rejecting illegal plays is entirely the caller's job. -/
theorem playCard_no_legality_check (oi ci : Nat) (s : GameState) (cid : String)
    (player : Player) (card : Card) (rest : List Card)
    (hw : s.winnerId = none)
    (hp : s.players[s.currentPlayerIndex]? = some player)
    (hr : removeFirstBy player.hand cid = some (card, rest)) :
    (playCard oi ci s cid).discardPile = s.discardPile ++ [card] ∧
      handsSum (playCard oi ci s cid).players + 1 = handsSum s.players := by
  have hw' : truthyStr s.out.winnerId = false := by
    unfold GameState.winnerId at hw
    rw [hw]
    rfl
  have hlen := removeFirstBy_length player.hand cid card rest hr
  have hset := handsSum_set s.out.players s.out.currentPlayerIndex player
    { player with hand := rest } hp
  have hlt : s.out.currentPlayerIndex < s.out.players.length := by
    rcases List.getElem?_eq_some.mp hp with ⟨h, _⟩
    exact h
  by_cases he : rest.isEmpty
  · rw [playCard_found oi ci s cid player card rest hw' hp hr, if_pos he]
    refine ⟨rfl, ?_⟩
    unfold GameState.players
    rw [GameState.out_mk]
    dsimp only at hset ⊢
    omega
  · rw [playCard_found_eff oi ci s cid player card rest hw' hp hr (by simpa using he)]
    have hcur : (s.out.players.set s.out.currentPlayerIndex
        { player with hand := rest })[s.out.currentPlayerIndex]? = some { player with hand := rest } := by
      rw [List.getElem?_set_self]
      simpa using hlt
    obtain ⟨hd, hdp, hci, hwi, hcu, hps, hplen⟩ :=
      playCardEffect_frame { s.out with
        players := s.out.players.set s.out.currentPlayerIndex { player with hand := rest },
        discardPile := s.out.discardPile ++ [card] } card { player with hand := rest } oi ci
    have hhs := playCardEffect_handsSum { s.out with
        players := s.out.players.set s.out.currentPlayerIndex { player with hand := rest },
        discardPile := s.out.discardPile ++ [card] } card { player with hand := rest } oi ci hcur
    split
    · refine ⟨?_, ?_⟩
      · unfold GameState.discardPile
        rw [GameState.out_mk]
        simp only [advanceTurn]
        exact hdp
      · unfold GameState.players
        rw [GameState.out_mk]
        simp only [advanceTurn]
        dsimp only at hhs hset ⊢
        omega
    · refine ⟨?_, ?_⟩
      · unfold GameState.discardPile
        rw [GameState.out_mk]
        exact hdp
      · unfold GameState.players
        rw [GameState.out_mk]
        dsimp only at hhs hset ⊢
        omega

/-- C9 witness: `♦3` on top card `♠5` is illegal (`isValidMove` is false) and
a suit choice is pending, yet the card is still played. -/
theorem playCard_no_legality_check_witness :
    (isValidMove (mkCard .diamonds .three) (mkCard .spades .five) 0 = false ∧
      noCheckState.pendingSuitChoice = true) ∧
    (playCard 0 0 noCheckState "♦-3").discardPile =
        noCheckState.discardPile ++ [mkCard .diamonds .three] ∧
      handsSum (playCard 0 0 noCheckState "♦-3").players + 1 = handsSum noCheckState.players :=
  ⟨⟨by decide, by decide⟩,
    playCard_no_legality_check 0 0 noCheckState "♦-3"
      (demoHuman [mkCard .diamonds .three, mkCard .diamonds .four])
      (mkCard .diamonds .three) [mkCard .diamonds .four] rfl (by decide) (by decide)⟩

theorem playCard_noPlayer (oi ci : Nat) (s : GameState) (cid : String)
    (hw : truthyStr s.out.winnerId = false)
    (hp : s.out.players[s.out.currentPlayerIndex]? = none) :
    playCard oi ci s cid = s := by
  unfold playCard
  simp [hw, hp]

theorem playCard_notFound (oi ci : Nat) (s : GameState) (cid : String) (player : Player)
    (hw : truthyStr s.out.winnerId = false)
    (hp : s.out.players[s.out.currentPlayerIndex]? = some player)
    (hr : removeFirstBy player.hand cid = none) :
    playCard oi ci s cid = s := by
  unfold playCard
  simp [hw, hp, hr]

-- --- CLAIM C6 ---

/-- C6: playing a 2 (hand not emptied) adds 2 to `pendingPickup` and advances
the turn by exactly one step; playing a Black Jack (Jack of Spades or Clubs)
adds 5 and advances by one step.  `pendingPickup` is accumulated additively
on top of its previous value, so stacking is implicit. -/
theorem attack_stacking (oi ci : Nat) (s : GameState) (cid : String)
    (player : Player) (card : Card) (rest : List Card)
    (hw : s.winnerId = none)
    (hp : s.players[s.currentPlayerIndex]? = some player)
    (hr : removeFirstBy player.hand cid = some (card, rest))
    (hne : rest ≠ []) :
    (card.rank = Rank.two →
      (playCard oi ci s cid).pendingPickup = s.pendingPickup + 2 ∧
        (playCard oi ci s cid).currentPlayerIndex =
          stepIndex s.currentPlayerIndex s.direction 1 s.players.length) ∧
    (card.rank = Rank.jack → (card.suit = Suit.spades ∨ card.suit = Suit.clubs) →
      (playCard oi ci s cid).pendingPickup = s.pendingPickup + 5 ∧
        (playCard oi ci s cid).currentPlayerIndex =
          stepIndex s.currentPlayerIndex s.direction 1 s.players.length) := by
  have hw' : truthyStr s.out.winnerId = false := by
    unfold GameState.winnerId at hw
    rw [hw]
    rfl
  have he : rest.isEmpty = false := by
    simpa using hne
  rw [playCard_found_eff oi ci s cid player card rest hw' hp hr he]
  constructor
  · intro h2
    have ht : isTwo card = true := by
      simp [isTwo, h2]
    rw [playCardEffect_two _ _ _ _ _ ht]
    refine ⟨?_, ?_⟩ <;>
      simp [advanceTurn, GameState.pendingPickup, GameState.currentPlayerIndex,
        GameState.direction, GameState.players]
  · intro hj hsuit
    have hb : isBlackJack card = true := by
      rcases hsuit with h | h <;> simp [isBlackJack, hj, h]
    rw [playCardEffect_blackjack _ _ _ _ _ hb]
    refine ⟨?_, ?_⟩ <;>
      simp [advanceTurn, GameState.pendingPickup, GameState.currentPlayerIndex,
        GameState.direction, GameState.players]

/-- C6 witness: the spec's scenario — under `pendingPickup = 2` the defender
plays a 2, giving `pendingPickup = 4` with the turn advanced to the next
player. -/
theorem attack_stacking_witness :
    ((playCard 0 0 attackState "♥-2").pendingPickup = attackState.pendingPickup + 2 ∧
      (playCard 0 0 attackState "♥-2").currentPlayerIndex =
        stepIndex attackState.currentPlayerIndex attackState.direction 1
          attackState.players.length) ∧
    attackState.pendingPickup = 2 ∧
    (playCard 0 0 attackState "♥-2").pendingPickup = 4 ∧
    (playCard 0 0 attackState "♥-2").currentPlayerIndex = 1 :=
  ⟨(attack_stacking 0 0 attackState "♥-2"
      (demoHuman [mkCard .hearts .two, mkCard .hearts .three]) (mkCard .hearts .two)
      [mkCard .hearts .three] rfl (by decide) (by decide) (by decide)).1 rfl,
    by decide, by decide, by decide⟩

-- --- CLAIM C7 ---

/-- C7 counterexample: `pendingSuitChoice` and `pendingSwap` can be
simultaneously true in a state reachable from `createNewGame` by engine
transitions alone.  From a 3-player deal in which the first player holds
`♥Q` and `♥K` (discard top `♥J`), playing the Queen leaves the turn with the
same player (`stepsToAdvance = 0`), and `playCard` checks no pending flags,
so the same player can immediately play the King: both flags end up true. -/
theorem double_pending_reachable :
    IsInitial init3 ∧
      Reach init3 (playCard 0 0 (playCard 0 0 init3 "♥-Q") "♥-K") ∧
      (playCard 0 0 (playCard 0 0 init3 "♥-Q") "♥-K").pendingSuitChoice = true ∧
      (playCard 0 0 (playCard 0 0 init3 "♥-Q") "♥-K").pendingSwap = true := by
  refine ⟨⟨rotDeck, 3, .medium, .vsBot, none, demoAvatars, ?_, ?_⟩, ?_, ?_, ?_⟩
  · unfold rotDeck
    have h2 : createDeck.take 10 ++ createDeck.drop 10 = createDeck :=
      List.take_append_drop 10 createDeck
    exact h2 ▸ List.perm_append_comm
  · rfl
  · exact Reach.tail (Reach.tail Reach.refl (Step.play init3 0 0 "♥-Q"))
      (Step.play _ 0 0 "♥-K")
  · decide
  · decide

/-- C7 amended: a single `playCard` call sets at most one pending flag — from
a state with neither flag set, the result never has both set.  The original
invariant fails because `playCard` does not refuse to act while a choice is
pending; mutual exclusion holds only under the caller discipline of resolving
a pending choice before the next play. -/
theorem pending_exclusive_amended (oi ci : Nat) (s : GameState) (cid : String)
    (h1 : s.pendingSuitChoice = false) (h2 : s.pendingSwap = false) :
    ¬((playCard oi ci s cid).pendingSuitChoice = true ∧
      (playCard oi ci s cid).pendingSwap = true) := by
  unfold GameState.pendingSuitChoice at h1
  unfold GameState.pendingSwap at h2
  cases htr : truthyStr s.out.winnerId with
  | true =>
    rw [playCard_terminal _ _ _ _ htr]
    unfold GameState.pendingSuitChoice
    simp [h1]
  | false =>
    cases hp : s.out.players[s.out.currentPlayerIndex]? with
    | none =>
      rw [playCard_noPlayer _ _ _ _ htr hp]
      unfold GameState.pendingSuitChoice
      simp [h1]
    | some player =>
      cases hr : removeFirstBy player.hand cid with
      | none =>
        rw [playCard_notFound _ _ _ _ player htr hp hr]
        unfold GameState.pendingSuitChoice
        simp [h1]
      | some pr =>
        obtain ⟨card, rest⟩ := pr
        by_cases he : rest.isEmpty
        · rw [playCard_found oi ci s cid player card rest htr hp hr, if_pos he]
          unfold GameState.pendingSuitChoice
          simp [h1]
        · rw [playCard_found_eff oi ci s cid player card rest htr hp hr (by simpa using he)]
          have hpe := playCardEffect_pending
            { s.out with
              players := s.out.players.set s.out.currentPlayerIndex { player with hand := rest },
              discardPile := s.out.discardPile ++ [card] }
            card { player with hand := rest } oi ci h1 h2
          split
          · unfold GameState.pendingSuitChoice GameState.pendingSwap
            simpa [advanceTurn] using hpe
          · unfold GameState.pendingSuitChoice GameState.pendingSwap
            simpa using hpe

/-- C7 amended, witness at a concrete state with no pending flags. -/
theorem pending_exclusive_amended_witness :
    ¬((playCard 0 0 winState "♦-3").pendingSuitChoice = true ∧
      (playCard 0 0 winState "♦-3").pendingSwap = true) :=
  pending_exclusive_amended 0 0 winState "♦-3" rfl rfl

-- --- CLAIM C5 ---

theorem playCard_undo_frame (oi ci : Nat) (s : GameState) (cid : String) :
    (playCard oi ci s cid).out.canUndo = s.out.canUndo ∧
      (playCard oi ci s cid).out.previousState = s.out.previousState := by
  cases htr : truthyStr s.out.winnerId with
  | true =>
    rw [playCard_terminal _ _ _ _ htr]
    exact ⟨rfl, rfl⟩
  | false =>
    cases hp : s.out.players[s.out.currentPlayerIndex]? with
    | none =>
      rw [playCard_noPlayer _ _ _ _ htr hp]
      exact ⟨rfl, rfl⟩
    | some player =>
      cases hr : removeFirstBy player.hand cid with
      | none =>
        rw [playCard_notFound _ _ _ _ player htr hp hr]
        exact ⟨rfl, rfl⟩
      | some pr =>
        obtain ⟨card, rest⟩ := pr
        by_cases he : rest.isEmpty
        · rw [playCard_found oi ci s cid player card rest htr hp hr, if_pos he]
          exact ⟨rfl, rfl⟩
        · rw [playCard_found_eff oi ci s cid player card rest htr hp hr (by simpa using he)]
          obtain ⟨_, _, _, _, hcu, hps, _⟩ := playCardEffect_frame
            { s.out with
              players := s.out.players.set s.out.currentPlayerIndex { player with hand := rest },
              discardPile := s.out.discardPile ++ [card] }
            card { player with hand := rest } oi ci
          split
          · exact ⟨by simpa [advanceTurn] using hcu, by simpa [advanceTurn] using hps⟩
          · exact ⟨by simpa using hcu, by simpa using hps⟩

/-- C5: the undo round-trip.  `playCard` after `saveStateForUndo` leaves
`canUndo`/`previousState` untouched, so `undoLastMove` returns exactly the
saved snapshot of `S` — equal to `S` in every field (hands, deck, discard
pile, `currentPlayerIndex`, `direction`, ...) except `previousState := null`,
`canUndo := false` and the informational `lastAction`; and `undoLastMove`
returns `null` whenever `canUndo` is false or `previousState` is null. -/
theorem undo_roundtrip (oi ci : Nat) (s s' : GameState) (cid : String) :
    undoLastMove (playCard oi ci (saveStateForUndo s) cid) =
      some (GameState.mk { s.out with
        previousState := none, canUndo := false, lastAction := "↩️ Move undone!" }) ∧
      (s'.canUndo = false ∨ s'.previousState = none → undoLastMove s' = none) := by
  constructor
  · have h := playCard_undo_frame oi ci (saveStateForUndo s) cid
    have hcu : (playCard oi ci (saveStateForUndo s) cid).out.canUndo = true := by
      rw [h.1]
      rfl
    have hps : (playCard oi ci (saveStateForUndo s) cid).out.previousState =
        some (GameState.mk { s.out with previousState := none, canUndo := false }) := by
      rw [h.2]
      rfl
    unfold undoLastMove
    rw [hcu, hps]
    rfl
  · intro hd
    unfold undoLastMove
    rcases hd with hc | hp
    · unfold GameState.canUndo at hc
      simp [hc]
    · unfold GameState.previousState at hp
      rw [hp]
      split <;> rfl

/-- C5 witness: a concrete round trip through `saveStateForUndo`, `playCard`
and `undoLastMove`, plus `undoLastMove` failing on a state with no undo. -/
theorem undo_roundtrip_witness :
    undoLastMove (playCard 0 0 (saveStateForUndo winState) "♦-5") =
      some (GameState.mk { winState.out with
        previousState := none, canUndo := false, lastAction := "↩️ Move undone!" }) ∧
      undoLastMove winState = none :=
  ⟨(undo_roundtrip 0 0 winState winState "♦-5").1,
    (undo_roundtrip 0 0 winState winState "♦-5").2 (Or.inl rfl)⟩

-- --- CLAIM C8 ---

theorem drawLoop_spec (shuffle : List Card → List Card)
    (hsh : ∀ l, (shuffle l).length = l.length) (fuel : Nat) :
    ∀ (deck discard hand : List Card) (drawn : Nat),
      (drawLoop shuffle fuel deck discard hand drawn).2.2.1.length
          = hand.length + min fuel (availableToDraw deck discard) ∧
        (drawLoop shuffle fuel deck discard hand drawn).1.length
            + (drawLoop shuffle fuel deck discard hand drawn).2.1.length
          = deck.length + discard.length - min fuel (availableToDraw deck discard) ∧
        (drawLoop shuffle fuel deck discard hand drawn).2.2.2
          = drawn + min fuel (availableToDraw deck discard) := by
  induction fuel with
  | zero =>
    intro deck discard hand drawn
    simp [drawLoop]
  | succ fuel ih =>
    intro deck discard hand drawn
    rw [drawLoop]
    by_cases hd : deck.isEmpty
    · have hdeck : deck = [] := List.isEmpty_iff.mp hd
      subst hdeck
      by_cases hlen : 1 < discard.length
      · have hne : discard ≠ [] := by
          intro e
          rw [e] at hlen
          simp at hlen
        cases hl : discard.getLast? with
        | none => exact absurd (List.getLast?_eq_none_iff.mp hl) hne
        | some top =>
          have hdeck1 : (shuffle discard.dropLast).length = discard.length - 1 := by
            rw [hsh, List.length_dropLast]
          have hne1 : shuffle discard.dropLast ≠ [] := by
            intro e
            rw [e] at hdeck1
            simp at hdeck1
            omega
          cases hl1 : (shuffle discard.dropLast).getLast? with
          | none => exact absurd (List.getLast?_eq_none_iff.mp hl1) hne1
          | some c =>
            simp only [refillDeck, List.isEmpty_nil, if_true, hlen, hl, hl1]
            obtain ⟨h1, h2, h3⟩ := ih (shuffle discard.dropLast).dropLast [top] (hand ++ [c]) (drawn + 1)
            refine ⟨?_, ?_, ?_⟩
            · rw [h1]
              simp only [availableToDraw, List.length_dropLast, hdeck1, List.length_append,
                List.length_nil, List.length_cons]
              omega
            · rw [h2]
              simp only [availableToDraw, List.length_dropLast, hdeck1, List.length_nil,
                List.length_cons]
              omega
            · rw [h3]
              simp only [availableToDraw, List.length_dropLast, hdeck1, List.length_nil,
                List.length_cons]
              omega
      · simp only [refillDeck, List.isEmpty_nil, if_true, hlen, if_false]
        simp only [availableToDraw, List.length_nil]
        refine ⟨?_, ?_, ?_⟩ <;> omega
    · have hne : deck ≠ [] := List.isEmpty_eq_false.mp (by simpa using hd)
      cases hl : deck.getLast? with
      | none => exact absurd (List.getLast?_eq_none_iff.mp hl) hne
      | some c =>
        have hpos : 0 < deck.length := List.length_pos.mpr hne
        simp only [refillDeck, hd, Bool.false_eq_true, if_false, hl]
        obtain ⟨h1, h2, h3⟩ := ih deck.dropLast discard (hand ++ [c]) (drawn + 1)
        refine ⟨?_, ?_, ?_⟩
        · rw [h1]
          simp only [availableToDraw, List.length_dropLast, List.length_append,
            List.length_cons, List.length_nil]
          omega
        · rw [h2]
          simp only [availableToDraw, List.length_dropLast]
          omega
        · rw [h3]
          simp only [availableToDraw, List.length_dropLast]
          omega

theorem drawCard_live (shuffle : List Card → List Card) (s : GameState) (player : Player)
    (hw : truthyStr s.out.winnerId = false)
    (hp : s.out.players[s.out.currentPlayerIndex]? = some player) :
    drawCard shuffle s = GameState.mk (advanceTurn
      { s.out with
        deck := (drawRes shuffle s player).1,
        discardPile := (drawRes shuffle s player).2.1,
        players := s.out.players.set s.out.currentPlayerIndex
          { player with hand := if player.isBot then (drawRes shuffle s player).2.2.1
              else sortHand (drawRes shuffle s player).2.2.1 },
        pendingPickup := 0,
        lastAction := if s.out.pendingPickup > 0 then
            player.name ++ " had to pick up " ++ Nat.repr (drawRes shuffle s player).2.2.2 ++ "! 😅"
          else player.name ++ " drew a card" } 1) := by
  unfold drawCard drawRes
  simp only [hw, Bool.false_eq_true, if_false, hp]

/-- C8: `drawCard` is a total function (it never raises): on a live state it
draws `min(countToDraw, available)` cards where `countToDraw` is
`pendingPickup` when positive and 1 otherwise, and `available` counts the
deck plus the recyclable discard pile (everything except its kept top card)
— so when deck and discard are exhausted the draw completes partially, down
to zero cards; in every case `pendingPickup` is reset to 0 and the turn
advances by exactly one step in the current direction. -/
theorem drawCard_total_spec (shuffle : List Card → List Card)
    (hsh : ∀ l, (shuffle l).length = l.length) (s : GameState) (player : Player)
    (hw : s.winnerId = none)
    (hp : s.players[s.currentPlayerIndex]? = some player) :
    (drawCard shuffle s).pendingPickup = 0 ∧
      (drawCard shuffle s).currentPlayerIndex =
        stepIndex s.currentPlayerIndex s.direction 1 s.players.length ∧
      ∃ q, (drawCard shuffle s).players[s.currentPlayerIndex]? = some q ∧
        q.hand.length = player.hand.length +
          min (if s.pendingPickup > 0 then s.pendingPickup else 1)
            (availableToDraw s.deck s.discardPile) := by
  have hw' : truthyStr s.out.winnerId = false := by
    unfold GameState.winnerId at hw
    rw [hw]
    rfl
  have hlt : s.out.currentPlayerIndex < s.out.players.length := (List.getElem?_eq_some.mp hp).1
  rw [drawCard_live shuffle s player hw' hp]
  obtain ⟨h1, h2, h3⟩ := drawLoop_spec shuffle hsh
    (if s.out.pendingPickup > 0 then s.out.pendingPickup else 1)
    s.out.deck s.out.discardPile player.hand 0
  refine ⟨?_, ?_, ?_⟩
  · simp [advanceTurn, GameState.pendingPickup]
  · simp [advanceTurn, GameState.currentPlayerIndex, GameState.direction, GameState.players]
  · refine ⟨{ player with hand :=
        (if player.isBot then (drawRes shuffle s player).2.2.1
         else sortHand (drawRes shuffle s player).2.2.1) }, ?_, ?_⟩
    · unfold GameState.players GameState.currentPlayerIndex
      rw [GameState.out_mk]
      simp only [advanceTurn]
      exact List.getElem?_set_self hlt
    · cases hb : player.isBot <;>
        simp [hb, sortHand_length, drawRes, h1, GameState.pendingPickup, GameState.deck,
          GameState.discardPile]

/-- C8 witness: forced +5 draw with deck empty and only the discard top left
— zero cards are supplied, yet `pendingPickup` resets and the turn advances. -/
theorem drawCard_total_spec_witness :
    (drawCard id exhaustState).pendingPickup = 0 ∧
      (drawCard id exhaustState).currentPlayerIndex =
        stepIndex exhaustState.currentPlayerIndex exhaustState.direction 1
          exhaustState.players.length ∧
      ∃ q, (drawCard id exhaustState).players[exhaustState.currentPlayerIndex]? = some q ∧
        q.hand.length = (demoHuman [mkCard .diamonds .three]).hand.length +
          min (if exhaustState.pendingPickup > 0 then exhaustState.pendingPickup else 1)
            (availableToDraw exhaustState.deck exhaustState.discardPile) :=
  drawCard_total_spec id (fun _ => rfl) exhaustState (demoHuman [mkCard .diamonds .three])
    rfl (by decide)

-- --- CLAIM C3: PER-TRANSITION CONSERVATION LEMMAS ---

theorem swap_double_set_handsSum (players : List Player) (cur j : Nat) (a b : Player)
    (ha : players[cur]? = some a) (hb : players[j]? = some b) :
    handsSum ((players.set cur { a with hand := b.hand }).set j { b with hand := a.hand })
      = handsSum players := by
  by_cases hij : j = cur
  · subst hij
    rw [List.set_set]
    have h := handsSum_set players _ b { b with hand := a.hand } hb
    dsimp only at h
    rw [ha] at hb
    injection hb with hba
    have hlen : a.hand.length = b.hand.length := by rw [hba]
    omega
  · have h2 : (players.set cur { a with hand := b.hand })[j]? = some b := by
      rw [List.getElem?_set_ne (fun e => hij e.symm)]
      exact hb
    have hA := handsSum_set players cur a { a with hand := b.hand } ha
    have hB := handsSum_set _ j b { b with hand := a.hand } h2
    dsimp only at hA hB
    omega

theorem chooseSuit_frame (s : GameState) (su : Suit) :
    cardCount (chooseSuit s su) = cardCount s ∧
      (chooseSuit s su).out.previousState = s.out.previousState := by
  unfold chooseSuit
  split
  · exact ⟨rfl, rfl⟩
  · exact ⟨rfl, rfl⟩

theorem swapWith_frame (s : GameState) (pid : String) :
    cardCount (swapWith s pid) = cardCount s ∧
      (swapWith s pid).out.previousState = s.out.previousState := by
  unfold swapWith
  split
  · exact ⟨rfl, rfl⟩
  split
  · exact ⟨rfl, rfl⟩
  rename_i cur hcur
  split
  · exact ⟨rfl, rfl⟩
  rename_i j hj
  split
  · exact ⟨rfl, rfl⟩
  rename_i target htarget
  constructor
  · unfold cardCount countF
    rw [GameState.out_mk]
    simp only [advanceTurn]
    have := swap_double_set_handsSum s.out.players s.out.currentPlayerIndex j cur target
      hcur htarget
    omega
  · simp [advanceTurn]

theorem clearPeek_frame (s : GameState) :
    cardCount (clearPeek s) = cardCount s ∧
      (clearPeek s).out.previousState = s.out.previousState :=
  ⟨rfl, rfl⟩

theorem confirmPassScreen_frame (s : GameState) :
    cardCount (confirmPassScreen s) = cardCount s ∧
      (confirmPassScreen s).out.previousState = s.out.previousState :=
  ⟨rfl, rfl⟩

theorem triggerPassScreen_frame (s : GameState) :
    cardCount (triggerPassScreen s) = cardCount s ∧
      (triggerPassScreen s).out.previousState = s.out.previousState := by
  unfold triggerPassScreen
  split
  · exact ⟨rfl, rfl⟩
  · exact ⟨rfl, rfl⟩

theorem botChooseSuit_frame (s : GameState) :
    cardCount (botChooseSuit s) = cardCount s ∧
      (botChooseSuit s).out.previousState = s.out.previousState := by
  unfold botChooseSuit
  split
  · exact ⟨rfl, rfl⟩
  · exact chooseSuit_frame s _

theorem botChooseSwap_frame (s : GameState) :
    cardCount (botChooseSwap s) = cardCount s ∧
      (botChooseSwap s).out.previousState = s.out.previousState := by
  unfold botChooseSwap
  split
  · exact ⟨rfl, rfl⟩
  rename_i bot hbot
  cases hf : List.filter (fun p => p.id != bot.id) s.out.players with
  | nil =>
    simp [hf]
  | cons o rest =>
    simp only [hf]
    exact swapWith_frame s _

theorem playCard_count (oi ci : Nat) (s : GameState) (cid : String) :
    cardCount (playCard oi ci s cid) = cardCount s := by
  cases htr : truthyStr s.out.winnerId with
  | true => rw [playCard_terminal _ _ _ _ htr]
  | false =>
    cases hp : s.out.players[s.out.currentPlayerIndex]? with
    | none => rw [playCard_noPlayer _ _ _ _ htr hp]
    | some player =>
      cases hr : removeFirstBy player.hand cid with
      | none => rw [playCard_notFound _ _ _ _ player htr hp hr]
      | some pr =>
        obtain ⟨card, rest⟩ := pr
        have hlen := removeFirstBy_length player.hand cid card rest hr
        have hset := handsSum_set s.out.players s.out.currentPlayerIndex player
          { player with hand := rest } hp
        have hlt : s.out.currentPlayerIndex < s.out.players.length :=
          (List.getElem?_eq_some.mp hp).1
        by_cases he : rest.isEmpty
        · rw [playCard_found oi ci s cid player card rest htr hp hr, if_pos he]
          unfold cardCount countF
          rw [GameState.out_mk]
          dsimp only at hset ⊢
          simp only [List.length_append, List.length_cons, List.length_nil]
          omega
        · rw [playCard_found_eff oi ci s cid player card rest htr hp hr (by simpa using he)]
          have hcur : (s.out.players.set s.out.currentPlayerIndex
              { player with hand := rest })[s.out.currentPlayerIndex]? =
                some { player with hand := rest } :=
            List.getElem?_set_self (by simpa using hlt)
          obtain ⟨hd, hdp, _, _, _, _, _⟩ := playCardEffect_frame
            { s.out with
              players := s.out.players.set s.out.currentPlayerIndex { player with hand := rest },
              discardPile := s.out.discardPile ++ [card] }
            card { player with hand := rest } oi ci
          have hhs := playCardEffect_handsSum
            { s.out with
              players := s.out.players.set s.out.currentPlayerIndex { player with hand := rest },
              discardPile := s.out.discardPile ++ [card] }
            card { player with hand := rest } oi ci hcur
          split
          · unfold cardCount countF
            rw [GameState.out_mk]
            simp only [advanceTurn]
            rw [hd, hdp, hhs]
            dsimp only at hset ⊢
            simp only [List.length_append, List.length_cons, List.length_nil]
            omega
          · unfold cardCount countF
            rw [GameState.out_mk]
            rw [hd, hdp, hhs]
            dsimp only at hset ⊢
            simp only [List.length_append, List.length_cons, List.length_nil]
            omega

theorem drawCard_count (shuffle : List Card → List Card)
    (hsh : ∀ l, (shuffle l).length = l.length) (s : GameState) :
    cardCount (drawCard shuffle s) = cardCount s := by
  cases htr : truthyStr s.out.winnerId with
  | true =>
    unfold drawCard
    simp [htr]
  | false =>
    cases hp : s.out.players[s.out.currentPlayerIndex]? with
    | none =>
      unfold drawCard
      simp [htr, hp]
    | some player =>
      rw [drawCard_live shuffle s player htr hp]
      obtain ⟨h1, h2, h3⟩ := drawLoop_spec shuffle hsh
        (if s.out.pendingPickup > 0 then s.out.pendingPickup else 1)
        s.out.deck s.out.discardPile player.hand 0
      have hlt : s.out.currentPlayerIndex < s.out.players.length :=
        (List.getElem?_eq_some.mp hp).1
      have hset := handsSum_set s.out.players s.out.currentPlayerIndex player
        { player with hand :=
          (if player.isBot then (drawRes shuffle s player).2.2.1
           else sortHand (drawRes shuffle s player).2.2.1) } hp
      unfold cardCount countF
      rw [GameState.out_mk]
      simp only [advanceTurn]
      have hq : ({ player with hand :=
          (if player.isBot then (drawRes shuffle s player).2.2.1
           else sortHand (drawRes shuffle s player).2.2.1) } : Player).hand.length =
          (drawRes shuffle s player).2.2.1.length := by
        cases hb : player.isBot <;> simp [hb, sortHand_length]
      simp only [availableToDraw] at h1 h2
      simp only [drawRes] at hq hset ⊢
      omega

theorem undoLastMove_consInv (s s' : GameState) (h : undoLastMove s = some s')
    (hInv : ConsInv s) : ConsInv s' := by
  unfold undoLastMove at h
  split at h
  · exact absurd h (by simp)
  cases hps : s.out.previousState with
  | none =>
    rw [hps] at h
    exact absurd h (by simp)
  | some p =>
    rw [hps] at h
    injection h with h
    subst h
    obtain ⟨hc, hn⟩ := hInv.2 p hps
    constructor
    · exact hc
    · intro q hq
      simp at hq

theorem dealPlayers_total (mode : GameMode) (names : Option (List String))
    (avatars : List String) (k : Nat) :
    ∀ (i : Nat) (deck : List Card),
      handsSum (dealPlayers mode names avatars i k deck).1 +
          (dealPlayers mode names avatars i k deck).2.length = deck.length := by
  induction k with
  | zero =>
    intro i deck
    simp [dealPlayers, handsSum]
  | succ k ih =>
    intro i deck
    rw [dealPlayers]
    dsimp only
    rw [handsSum_cons]
    have hrec := ih (i + 1) (deck.drop 7)
    have hhand : (if (i == 0 || mode == GameMode.localMultiplayer) = true
        then sortHand (deck.take 7) else deck.take 7).length = (deck.take 7).length := by
      split <;> simp [sortHand_length]
    rw [hhand]
    simp only [List.length_take, List.length_drop] at *
    omega

theorem drawCard_prev (shuffle : List Card → List Card) (s : GameState) :
    (drawCard shuffle s).out.previousState = s.out.previousState := by
  cases htr : truthyStr s.out.winnerId with
  | true =>
    unfold drawCard
    simp [htr]
  | false =>
    cases hp : s.out.players[s.out.currentPlayerIndex]? with
    | none =>
      unfold drawCard
      simp [htr, hp]
    | some player =>
      rw [drawCard_live shuffle s player htr hp]
      simp [advanceTurn]

theorem saveStateForUndo_count (s : GameState) :
    cardCount (saveStateForUndo s) = cardCount s := rfl

theorem initial_consInv (s : GameState) (h : IsInitial s) : ConsInv s := by
  obtain ⟨sh, n, diff, mode, names, avatars, hperm, hc⟩ := h
  unfold createNewGameFrom at hc
  dsimp only at hc
  cases hl : (dealPlayers mode names avatars 0
      (if n < 2 then 2 else if n > 4 then 4 else n) sh).2.getLast? with
  | none =>
    rw [hl] at hc
    exact absurd hc (by simp)
  | some startCard =>
    rw [hl] at hc
    injection hc with hc
    subst hc
    have htot := dealPlayers_total mode names avatars
      (if n < 2 then 2 else if n > 4 then 4 else n) 0 sh
    have hlen : sh.length = 52 := by
      rw [hperm.length_eq]
      rfl
    have hne : (dealPlayers mode names avatars 0
        (if n < 2 then 2 else if n > 4 then 4 else n) sh).2 ≠ [] := by
      intro e
      rw [e] at hl
      simp at hl
    have hpos : 0 < (dealPlayers mode names avatars 0
        (if n < 2 then 2 else if n > 4 then 4 else n) sh).2.length :=
      List.length_pos.mpr hne
    constructor
    · unfold cardCount countF
      rw [GameState.out_mk]
      dsimp only
      simp only [List.length_dropLast, List.length_cons, List.length_nil]
      omega
    · intro p hp
      simp at hp

theorem step_consInv (s s' : GameState) (hs : Step s s') (h : ConsInv s) : ConsInv s' := by
  cases hs with
  | play oi ci cid =>
    refine ⟨(playCard_count oi ci s cid).trans h.1, fun p hp => h.2 p ?_⟩
    rw [(playCard_undo_frame oi ci s cid).2] at hp
    exact hp
  | draw shuffle hlen =>
    refine ⟨(drawCard_count shuffle hlen s).trans h.1, fun p hp => h.2 p ?_⟩
    rw [drawCard_prev shuffle s] at hp
    exact hp
  | suitChoice su =>
    refine ⟨(chooseSuit_frame s su).1.trans h.1, fun p hp => h.2 p ?_⟩
    rw [(chooseSuit_frame s su).2] at hp
    exact hp
  | swapChoice pid =>
    refine ⟨(swapWith_frame s pid).1.trans h.1, fun p hp => h.2 p ?_⟩
    rw [(swapWith_frame s pid).2] at hp
    exact hp
  | peekClear =>
    refine ⟨(clearPeek_frame s).1.trans h.1, fun p hp => h.2 p ?_⟩
    rw [(clearPeek_frame s).2] at hp
    exact hp
  | passConfirm =>
    refine ⟨(confirmPassScreen_frame s).1.trans h.1, fun p hp => h.2 p ?_⟩
    rw [(confirmPassScreen_frame s).2] at hp
    exact hp
  | passTrigger =>
    refine ⟨(triggerPassScreen_frame s).1.trans h.1, fun p hp => h.2 p ?_⟩
    rw [(triggerPassScreen_frame s).2] at hp
    exact hp
  | save =>
    refine ⟨(saveStateForUndo_count s).trans h.1, fun p hp => ?_⟩
    unfold saveStateForUndo at hp
    rw [GameState.out_mk] at hp
    dsimp only at hp
    injection hp with hp
    subst hp
    exact ⟨h.1, rfl⟩
  | undo s2 h2 =>
    exact undoLastMove_consInv s s' h2 h
  | botSuit =>
    refine ⟨(botChooseSuit_frame s).1.trans h.1, fun p hp => h.2 p ?_⟩
    rw [(botChooseSuit_frame s).2] at hp
    exact hp
  | botSwap =>
    refine ⟨(botChooseSwap_frame s).1.trans h.1, fun p hp => h.2 p ?_⟩
    rw [(botChooseSwap_frame s).2] at hp
    exact hp

-- --- CLAIM C3 ---

/-- C3: card conservation — in every state reachable from a `createNewGame`
deal by any sequence of engine transitions, the deck, the discard pile and
the players' hands together hold exactly 52 cards; no transition creates or
destroys a card. -/
theorem card_conservation (s0 s : GameState) (h0 : IsInitial s0) (hr : Reach s0 s) :
    cardCount s = 52 := by
  suffices h : ConsInv s from h.1
  induction hr with
  | refl => exact initial_consInv s0 h0
  | tail _ hs ih => exact step_consInv _ _ hs ih

/-- C3 witness: the invariant evaluated at a concrete 4-player deal. -/
theorem card_conservation_witness : cardCount init4 = 52 :=
  card_conservation init4 init4
    ⟨createDeck, 4, .medium, .vsBot, none, demoAvatars, List.Perm.refl _, rfl⟩
    Reach.refl

-- --- CLAIM C10: SUIT-COUNT MAP LEMMAS ---

theorem countSuitIn_append_single (l : List Card) (c : Card) (su : Suit) :
    countSuitIn (l ++ [c]) su = countSuitIn l su + (if c.suit = su then 1 else 0) := by
  unfold countSuitIn
  rw [List.filter_append]
  by_cases h : c.suit = su <;> simp [h]

theorem countSuitIn_pos_iff (l : List Card) (su : Suit) :
    0 < countSuitIn l su ↔ firstSuitIdx l su < l.length := by
  unfold countSuitIn firstSuitIdx
  rw [List.findIdx_lt_length]
  simp [List.length_pos, List.filter_eq_nil_iff]

theorem firstSuitIdx_append_of_pos (l l2 : List Card) (su : Suit)
    (h : 0 < countSuitIn l su) : firstSuitIdx (l ++ l2) su = firstSuitIdx l su := by
  have h2 := (countSuitIn_pos_iff l su).mp h
  unfold firstSuitIdx at h2 ⊢
  rw [List.findIdx_append, if_pos h2]

theorem firstSuitIdx_append_self_zero (l : List Card) (c : Card)
    (h : countSuitIn l c.suit = 0) : firstSuitIdx (l ++ [c]) c.suit = l.length := by
  unfold firstSuitIdx
  rw [List.findIdx_append]
  rw [if_neg]
  · simp [List.findIdx_cons]
  · intro hlt
    have h2 : 0 < countSuitIn l c.suit := (countSuitIn_pos_iff l c.suit).mpr hlt
    omega

theorem bumpSuit_assoc (su t : Suit) : ∀ (m : List (Suit × Nat)),
    assocCount (bumpSuit m su) t =
      if t = su then assocCount m t + 1 else assocCount m t := by
  intro m
  induction m with
  | nil =>
    by_cases h : t = su
    · subst h
      simp [bumpSuit, assocCount]
    · have h2 : ¬(su = t) := fun e => h e.symm
      simp [bumpSuit, assocCount, h, h2]
  | cons hd rest ih =>
    obtain ⟨k, v⟩ := hd
    by_cases hk : k = su
    · subst hk
      by_cases ht : t = k
      · subst ht
        simp [bumpSuit, assocCount]
      · have h2 : ¬(k = t) := fun e => ht e.symm
        simp [bumpSuit, assocCount, ht, h2]
    · by_cases ht : t = k
      · subst ht
        simp [bumpSuit, assocCount, hk]
      · have h2 : ¬(k = t) := fun e => ht e.symm
        simp [bumpSuit, assocCount, hk, h2, ht, ih]

theorem bumpSuit_not_mem (su : Suit) : ∀ (m : List (Suit × Nat)),
    su ∉ m.map Prod.fst → bumpSuit m su = m ++ [(su, 1)] := by
  intro m
  induction m with
  | nil => intro _; rfl
  | cons hd rest ih =>
    intro h
    obtain ⟨k, v⟩ := hd
    rw [List.map_cons, List.mem_cons] at h
    push_neg at h
    unfold bumpSuit
    rw [if_neg (fun e => h.1 e.symm), ih h.2]
    rfl

theorem bumpSuit_mem_keys (su : Suit) : ∀ (m : List (Suit × Nat)),
    su ∈ m.map Prod.fst → (bumpSuit m su).map Prod.fst = m.map Prod.fst := by
  intro m
  induction m with
  | nil => intro h; simp at h
  | cons hd rest ih =>
    intro h
    obtain ⟨k, v⟩ := hd
    by_cases hk : k = su
    · simp [bumpSuit, hk]
    · rw [List.map_cons, List.mem_cons] at h
      rcases h with h | h
      · exact absurd h.symm hk
      · simp [bumpSuit, hk, ih h]

theorem bumpSuit_entries (su : Suit) : ∀ (m : List (Suit × Nat)),
    (m.map Prod.fst).Nodup →
    ∀ e ∈ bumpSuit m su,
      (e.1 ≠ su ∧ e ∈ m) ∨ (e.1 = su ∧ e.2 = assocCount m su + 1) := by
  intro m
  induction m with
  | nil =>
    intro _ e he
    simp [bumpSuit] at he
    subst he
    right
    exact ⟨rfl, rfl⟩
  | cons hd rest ih =>
    intro hnd e he
    obtain ⟨k, v⟩ := hd
    obtain ⟨esu, ev⟩ := e
    rw [List.map_cons, List.nodup_cons] at hnd
    by_cases hk : k = su
    · subst hk
      rw [bumpSuit, if_pos rfl] at he
      rcases List.mem_cons.mp he with h | h
      · injection h with h1 h2
        subst h1
        subst h2
        right
        exact ⟨rfl, by simp [assocCount]⟩
      · left
        refine ⟨?_, List.mem_cons_of_mem _ h⟩
        intro hes
        dsimp only at hes
        subst hes
        exact hnd.1 (List.mem_map.mpr ⟨(esu, ev), h, rfl⟩)
    · rw [bumpSuit, if_neg hk] at he
      rcases List.mem_cons.mp he with h | h
      · injection h with h1 h2
        subst h1
        subst h2
        exact Or.inl ⟨hk, List.mem_cons_self _ _⟩
      · rcases ih hnd.2 _ h with ⟨hne, hmem⟩ | ⟨hes, hcnt⟩
        · exact Or.inl ⟨hne, List.mem_cons_of_mem _ hmem⟩
        · right
          refine ⟨hes, ?_⟩
          rw [hcnt]
          have h2 : ¬(k = su) := hk
          simp [assocCount, h2]

theorem argmaxFold_spec (r : Suit × Nat → Suit × Nat → Prop) :
    ∀ (L : List (Suit × Nat)) (a : Suit × Nat), L.Pairwise r →
      ((L.foldl (fun acc e => if e.2 > acc.2 then e else acc) a = a ∧ ∀ e ∈ L, e.2 ≤ a.2) ∨
        (L.foldl (fun acc e => if e.2 > acc.2 then e else acc) a ∈ L ∧
          a.2 < (L.foldl (fun acc e => if e.2 > acc.2 then e else acc) a).2)) ∧
      (∀ e ∈ L, e.2 ≤ (L.foldl (fun acc e => if e.2 > acc.2 then e else acc) a).2) ∧
      (∀ e ∈ L, e.2 = (L.foldl (fun acc e => if e.2 > acc.2 then e else acc) a).2 →
        a.2 < e.2 →
        L.foldl (fun acc e => if e.2 > acc.2 then e else acc) a = e ∨
          r (L.foldl (fun acc e => if e.2 > acc.2 then e else acc) a) e) := by
  intro L
  induction L with
  | nil =>
    intro a _
    exact ⟨Or.inl ⟨rfl, by simp⟩, by simp, by simp⟩
  | cons x xs ih =>
    intro a hpw
    rw [List.pairwise_cons] at hpw
    obtain ⟨hx, hpw2⟩ := hpw
    simp only [List.foldl_cons]
    by_cases hgt : x.2 > a.2
    · rw [if_pos hgt]
      obtain ⟨hA, hB, hC⟩ := ih x hpw2
      refine ⟨?_, ?_, ?_⟩
      · right
        rcases hA with ⟨heq, hall⟩ | ⟨hmem, hlt⟩
        · rw [heq]
          exact ⟨List.mem_cons_self _ _, hgt⟩
        · exact ⟨List.mem_cons_of_mem _ hmem, lt_trans hgt hlt⟩
      · intro e he
        rcases List.mem_cons.mp he with he | he
        · subst he
          rcases hA with ⟨heq, _⟩ | ⟨_, hlt⟩
          · rw [heq]
          · exact le_of_lt hlt
        · exact hB e he
      · intro e he heq hae
        rcases List.mem_cons.mp he with he | he
        · subst he
          rcases hA with ⟨heqR, _⟩ | ⟨hmem, hlt⟩
          · left
            rw [heqR]
          · omega
        · by_cases hxe : x.2 < e.2
          · exact hC e he heq hxe
          · rcases hA with ⟨heqR, _⟩ | ⟨hmem, hlt⟩
            · right
              rw [heqR]
              exact hx e he
            · omega
    · rw [if_neg hgt]
      obtain ⟨hA, hB, hC⟩ := ih a hpw2
      have haR : a.2 ≤ (xs.foldl (fun acc e => if e.2 > acc.2 then e else acc) a).2 := by
        rcases hA with ⟨heq, _⟩ | ⟨_, hlt⟩
        · rw [heq]
        · exact le_of_lt hlt
      refine ⟨?_, ?_, ?_⟩
      · rcases hA with ⟨heq, hall⟩ | ⟨hmem, hlt⟩
        · left
          refine ⟨heq, ?_⟩
          intro e he
          rcases List.mem_cons.mp he with he | he
          · subst he
            omega
          · exact hall e he
        · exact Or.inr ⟨List.mem_cons_of_mem _ hmem, hlt⟩
      · intro e he
        rcases List.mem_cons.mp he with he | he
        · subst he
          omega
        · exact hB e he
      · intro e he hN hae
        rcases List.mem_cons.mp he with he | he
        · subst he
          omega
        · exact hC e he hN hae

theorem suitCountsOf_inv (hand : List Card) :
    (∀ su, assocCount (suitCountsOf hand) su = countSuitIn hand su) ∧
      (∀ e ∈ suitCountsOf hand, e.2 = countSuitIn hand e.1 ∧ 0 < e.2) ∧
      ((suitCountsOf hand).map Prod.fst).Nodup ∧
      ((suitCountsOf hand).map Prod.fst).Pairwise
        (fun a b => firstSuitIdx hand a < firstSuitIdx hand b) ∧
      (∀ su, su ∈ (suitCountsOf hand).map Prod.fst ↔ 0 < countSuitIn hand su) := by
  induction hand using List.reverseRecOn with
  | nil =>
    refine ⟨?_, ?_, ?_, ?_, ?_⟩ <;> simp [suitCountsOf, assocCount, countSuitIn]
  | append_singleton l c ih =>
    obtain ⟨ih1, ih2, ih3, ih4, ih5⟩ := ih
    have hstep : suitCountsOf (l ++ [c]) = bumpSuit (suitCountsOf l) c.suit := by
      unfold suitCountsOf
      rw [List.foldl_append]
      rfl
    rw [hstep]
    have comp1 : ∀ su, assocCount (bumpSuit (suitCountsOf l) c.suit) su =
        countSuitIn (l ++ [c]) su := by
      intro su
      rw [bumpSuit_assoc, countSuitIn_append_single]
      by_cases hsu : su = c.suit
      · subst hsu
        simp [ih1]
      · have h2 : ¬(c.suit = su) := fun e => hsu e.symm
        simp [hsu, h2, ih1]
    by_cases hmem : c.suit ∈ (suitCountsOf l).map Prod.fst
    · have hkeys := bumpSuit_mem_keys c.suit (suitCountsOf l) hmem
      have hpos : 0 < countSuitIn l c.suit := (ih5 c.suit).mp hmem
      refine ⟨comp1, ?_, ?_, ?_, ?_⟩
      · intro e he
        rcases bumpSuit_entries c.suit (suitCountsOf l) ih3 e he with ⟨hne, hmem2⟩ | ⟨heq, hcnt⟩
        · obtain ⟨h1, h2⟩ := ih2 e hmem2
          refine ⟨?_, h2⟩
          rw [countSuitIn_append_single]
          have h3 : ¬(c.suit = e.1) := fun x => hne x.symm
          simp [h3, h1]
        · refine ⟨?_, by omega⟩
          rw [heq, hcnt, ih1, countSuitIn_append_single]
          simp
      · rw [hkeys]
        exact ih3
      · rw [hkeys]
        refine ih4.imp_of_mem ?_
        intro a b ha hb hab
        rw [firstSuitIdx_append_of_pos l [c] a ((ih5 a).mp ha),
          firstSuitIdx_append_of_pos l [c] b ((ih5 b).mp hb)]
        exact hab
      · intro su
        rw [hkeys, countSuitIn_append_single]
        constructor
        · intro h
          have := (ih5 su).mp h
          omega
        · intro h
          by_cases hsu : c.suit = su
          · subst hsu
            exact hmem
          · have h2 : 0 < countSuitIn l su := by simpa [hsu] using h
            exact (ih5 su).mpr h2
    · have happ := bumpSuit_not_mem c.suit (suitCountsOf l) hmem
      have hzero : countSuitIn l c.suit = 0 := by
        by_contra hne
        exact hmem ((ih5 c.suit).mpr (Nat.pos_of_ne_zero hne))
      refine ⟨comp1, ?_, ?_, ?_, ?_⟩
      · intro e he
        rw [happ, List.mem_append] at he
        rcases he with he | he
        · obtain ⟨h1, h2⟩ := ih2 e he
          have hne : e.1 ≠ c.suit := by
            intro hx
            exact hmem (List.mem_map.mpr ⟨e, he, hx⟩)
          refine ⟨?_, h2⟩
          rw [countSuitIn_append_single]
          have h3 : ¬(c.suit = e.1) := fun x => hne x.symm
          simp [h3, h1]
        · simp at he
          subst he
          rw [countSuitIn_append_single]
          simp [hzero]
      · rw [happ, List.map_append]
        rw [List.nodup_append]
        refine ⟨ih3, by simp, ?_⟩
        intro a ha hb
        simp at hb
        subst hb
        exact hmem ha
      · rw [happ, List.map_append]
        rw [List.pairwise_append]
        refine ⟨?_, by simp, ?_⟩
        · refine ih4.imp_of_mem ?_
          intro a b ha hb hab
          rw [firstSuitIdx_append_of_pos l [c] a ((ih5 a).mp ha),
            firstSuitIdx_append_of_pos l [c] b ((ih5 b).mp hb)]
          exact hab
        · intro a ha b hb
          simp at hb
          subst hb
          rw [firstSuitIdx_append_of_pos l [c] a ((ih5 a).mp ha),
            firstSuitIdx_append_self_zero l c hzero]
          have h2 := (countSuitIn_pos_iff l a).mp ((ih5 a).mp ha)
          exact h2
      · intro su
        rw [happ, List.map_append, List.mem_append, countSuitIn_append_single]
        constructor
        · intro h
          rcases h with h | h
          · have := (ih5 su).mp h
            omega
          · simp at h
            subst h
            simp
        · intro h
          by_cases hsu : c.suit = su
          · subst hsu
            simp
          · have h2 : 0 < countSuitIn l su := by simpa [hsu] using h
            exact Or.inl ((ih5 su).mpr h2)

-- --- CLAIM C10 ---

/-- C10 counterexample: with bot hand `[♠5, ♥6]` Hearts and Spades tie (one
card each), and Hearts precedes Spades in the `Suit` declaration order — yet
`botChooseSuit` resolves the pending choice to Spades, because `Object.entries`
of the count map enumerates suits in insertion order (first occurrence in the
hand), not declaration order. -/
theorem botChooseSuit_tie_counterexample :
    countSuitIn [mkCard .spades .five, mkCard .hearts .six] Suit.hearts =
        countSuitIn [mkCard .spades .five, mkCard .hearts .six] Suit.spades ∧
      allSuits.indexOf Suit.hearts < allSuits.indexOf Suit.spades ∧
      tieSuitState.pendingSuitChoice = true ∧
      (botChooseSuit tieSuitState).chosenSuit = some Suit.spades ∧
      Suit.spades ≠ Suit.hearts :=
  ⟨by decide, by decide, by decide, by decide, by decide⟩

/-- C10 amended: `botChooseSuit` resolves the pending suit choice to
`bestSuitOf` of the current bot's hand, which picks a suit of maximal count;
ties are broken by order of first occurrence of the suit in the hand (JS
object-key insertion order), not by the `Suit` declaration order; Hearts is
the default when the hand is empty. -/
theorem botChooseSuit_amended (s : GameState) (bot : Player)
    (hp : s.players[s.currentPlayerIndex]? = some bot) :
    botChooseSuit s = chooseSuit s (bestSuitOf bot.hand) ∧
      bestSuitOf ([] : List Card) = Suit.hearts ∧
      (∀ su, countSuitIn bot.hand su ≤ countSuitIn bot.hand (bestSuitOf bot.hand)) ∧
      (∀ su, countSuitIn bot.hand su = countSuitIn bot.hand (bestSuitOf bot.hand) →
        firstSuitIdx bot.hand (bestSuitOf bot.hand) ≤ firstSuitIdx bot.hand su) := by
  have hcall : botChooseSuit s = chooseSuit s (bestSuitOf bot.hand) := by
    have hp2 : s.out.players[s.out.currentPlayerIndex]? = some bot := hp
    unfold botChooseSuit
    simp only [hp2]
  obtain ⟨inv1, inv2, inv3, inv4, inv5⟩ := suitCountsOf_inv bot.hand
  have hpw : (suitCountsOf bot.hand).Pairwise
      (fun e1 e2 => firstSuitIdx bot.hand e1.1 < firstSuitIdx bot.hand e2.1) :=
    (@List.pairwise_map (Suit × Nat) Suit Prod.fst
      (fun a b => firstSuitIdx bot.hand a < firstSuitIdx bot.hand b)
      (suitCountsOf bot.hand)).mp inv4
  obtain ⟨fA, fB, fC⟩ := argmaxFold_spec _ (suitCountsOf bot.hand) (Suit.hearts, 0) hpw
  have hbest : bestSuitOf bot.hand =
      ((suitCountsOf bot.hand).foldl (fun acc e => if e.2 > acc.2 then e else acc)
        (Suit.hearts, 0)).1 := rfl
  rcases fA with ⟨heqR, hall⟩ | ⟨hmem, hlt⟩
  · have hz : ∀ t, countSuitIn bot.hand t = 0 := by
      intro t
      by_contra hne
      obtain ⟨e, he, hfst⟩ := List.mem_map.mp ((inv5 t).mpr (Nat.pos_of_ne_zero hne))
      have h1 := (inv2 e he).2
      have h2 := hall e he
      omega
    have hidx : ∀ t, firstSuitIdx bot.hand t = bot.hand.length := by
      intro t
      have h1 : ¬(firstSuitIdx bot.hand t < bot.hand.length) := by
        rw [← countSuitIn_pos_iff]
        rw [hz t]
        omega
      have h2 : firstSuitIdx bot.hand t ≤ bot.hand.length := by
        unfold firstSuitIdx
        exact List.findIdx_le_length _
      omega
    refine ⟨hcall, rfl, ?_, ?_⟩
    · intro su
      rw [hz su]
      exact Nat.zero_le _
    · intro su _
      rw [hidx, hidx]
  · have hcb : countSuitIn bot.hand (bestSuitOf bot.hand) =
        ((suitCountsOf bot.hand).foldl (fun acc e => if e.2 > acc.2 then e else acc)
          (Suit.hearts, 0)).2 := by
      rw [hbest]
      exact ((inv2 _ hmem).1).symm
    refine ⟨hcall, rfl, ?_, ?_⟩
    · intro su
      by_cases hc : 0 < countSuitIn bot.hand su
      · obtain ⟨e, he, hfst⟩ := List.mem_map.mp ((inv5 su).mpr hc)
        have hecnt := (inv2 e he).1
        have hle := fB e he
        rw [hcb, ← hfst, ← hecnt]
        exact hle
      · have h0 : countSuitIn bot.hand su = 0 := by omega
        rw [h0]
        exact Nat.zero_le _
    · intro su heq2
      have hRpos := (inv2 _ hmem).2
      have hc : 0 < countSuitIn bot.hand su := by
        rw [heq2, hcb]
        exact hRpos
      obtain ⟨e, he, hfst⟩ := List.mem_map.mp ((inv5 su).mpr hc)
      have hecnt := (inv2 e he).1
      have heR : e.2 = ((suitCountsOf bot.hand).foldl
          (fun acc e => if e.2 > acc.2 then e else acc) (Suit.hearts, 0)).2 := by
        rw [hecnt, hfst, heq2, hcb]
      have hae : ((Suit.hearts, 0) : Suit × Nat).2 < e.2 := by
        rw [hecnt, hfst]
        exact hc
      rcases fC e he heR hae with hRe | hrel
      · rw [hbest, hRe, hfst]
      · rw [hbest]
        have h3 := hrel
        rw [hfst] at h3
        omega

/-- C10 amended, witness at the tie hand `[♠5, ♥6]`. -/
theorem botChooseSuit_amended_witness :
    botChooseSuit tieSuitState =
        chooseSuit tieSuitState (bestSuitOf [mkCard .spades .five, mkCard .hearts .six]) ∧
      bestSuitOf ([] : List Card) = Suit.hearts ∧
      (∀ su, countSuitIn [mkCard .spades .five, mkCard .hearts .six] su ≤
        countSuitIn [mkCard .spades .five, mkCard .hearts .six]
          (bestSuitOf [mkCard .spades .five, mkCard .hearts .six])) ∧
      (∀ su, countSuitIn [mkCard .spades .five, mkCard .hearts .six] su =
          countSuitIn [mkCard .spades .five, mkCard .hearts .six]
            (bestSuitOf [mkCard .spades .five, mkCard .hearts .six]) →
        firstSuitIdx [mkCard .spades .five, mkCard .hearts .six]
            (bestSuitOf [mkCard .spades .five, mkCard .hearts .six]) ≤
          firstSuitIdx [mkCard .spades .five, mkCard .hearts .six] su) :=
  botChooseSuit_amended tieSuitState
    (demoBot [mkCard .spades .five, mkCard .hearts .six]) (by decide)
